import Mathlib

/-!
Tri-state PATCH semantics of `golang-http-patch`.

A shallow embedding of `patch/optional.go` (the `Optional[T]` tri-state container
and `SetUpdate`), of `models.PatchUserDTO` and of the `handlers.PatchUser` handler,
together with the properties of the specification that concern them.

Library code the program calls (`bytes.TrimSpace`, `json.Unmarshal`, the request
decoder, the validator, the gorm store) is not part of the repository; it enters the
embedding as explicit parameters, so every theorem holds for all behaviours of it.
-/

namespace GoPatch

/-! ## Go values -/

/-- Go byte slices (`[]byte`). -/
abbrev Bytes := List UInt8

/-- The zero value of a Go type (`var zero T`). -/
class GoZero (T : Type) where
  zero : T

instance : GoZero String := ⟨""⟩

instance : GoZero Int := ⟨0⟩

instance : GoZero Bool := ⟨false⟩

/-- The values of the Go type `int` on a 64-bit platform. -/
def isGoInt (n : Int) : Bool :=
  decide (-(2 : Int) ^ 63 ≤ n ∧ n < (2 : Int) ^ 63)

/-- Carrier of Go `float64` values, identified by their IEEE-754 bit pattern.
No floating-point arithmetic is modelled. -/
structure Float64 where
  bits : Nat
deriving DecidableEq, Repr

instance : GoZero Float64 := ⟨⟨0⟩⟩

/-- Go interface values (`any`) as far as the update map needs them: the nil
interface, or a dynamic value of one of the field types of `PatchUserDTO`. -/
inductive GoAny where
  | nil
  | str (s : String)
  | int (n : Int)
  | bool (b : Bool)
  | float (f : Float64)
deriving DecidableEq, Repr

/-- Conversion of a typed value to an interface value (`any(v)`). -/
class ToAny (T : Type) where
  toAny : T → GoAny

instance : ToAny String := ⟨GoAny.str⟩

instance : ToAny Int := ⟨GoAny.int⟩

instance : ToAny Bool := ⟨GoAny.bool⟩

instance : ToAny Float64 := ⟨GoAny.float⟩

/-! ## `map[string]any` -/

/-- A Go `map[string]any`, kept as an association list. `make(map[string]any)` is `[]`. -/
abbrev GoMap := List (String × GoAny)

/-- Map read `v, ok := m[k]`. -/
def GoMap.get : GoMap → String → Option GoAny
  | [], _ => none
  | (k', v') :: rest, k => if k' = k then some v' else GoMap.get rest k

/-- Map write `m[k] = v`: rebinds `k` when it is bound, adds it otherwise. -/
def GoMap.assign : GoMap → String → GoAny → GoMap
  | [], k, v => [(k, v)]
  | (k', v') :: rest, k, v =>
    if k' = k then (k, v) :: rest else (k', v') :: GoMap.assign rest k v

/-- The keys bound in the map. -/
def GoMap.keys (m : GoMap) : List String :=
  m.map Prod.fst

/-- Go `len(m)`. -/
def GoMap.len (m : GoMap) : Nat :=
  m.length

/-! ## `patch.Optional[T]` -/

/-- The literal `[]byte("null")`. -/
def nullLiteral : Bytes := [0x6e, 0x75, 0x6c, 0x6c]

/-- The two standard-library routines `UnmarshalJSON` calls, for a value type `T` and
an error type `E`: `bytes.TrimSpace`, and `json.Unmarshal(b, &v)`, which receives the
current value of `v` and returns the error (`none` is Go `nil`) and the value left in `v`. -/
structure JSONLib (T E : Type) where
  TrimSpace : Bytes → Bytes
  Unmarshal : Bytes → T → Option E × T

/-- Optional is a tri-state: Unset (missing), Null (explicit null), Value. -/
structure Optional (T : Type) where
  set : Bool
  null : Bool
  value : T
deriving DecidableEq, Repr

/-- The Go zero value of `Optional[T]`: both flags false, the value zero. -/
instance {T : Type} [GoZero T] : GoZero (Optional T) := ⟨⟨false, false, GoZero.zero⟩⟩

/-- Method `(o *Optional[T]) UnmarshalJSON(b []byte) error`: returns the error and the
receiver after the call. -/
def Optional.UnmarshalJSON {T E : Type} [GoZero T] (lib : JSONLib T E) (o : Optional T)
    (b : Bytes) : Option E × Optional T :=
  let o1 : Optional T := { o with set := true }
  if lib.TrimSpace b = nullLiteral then
    (none, { o1 with null := true, value := GoZero.zero })
  else
    let o2 : Optional T := { o1 with null := false }
    let r := lib.Unmarshal b o2.value
    (r.1, { o2 with value := r.2 })

/-- Method `IsSet`. -/
def Optional.IsSet {T : Type} (o : Optional T) : Bool := o.set

/-- Method `IsNull`. -/
def Optional.IsNull {T : Type} (o : Optional T) : Bool := o.set && o.null

/-- Method `Value`. -/
def Optional.Value {T : Type} (o : Optional T) : T × Bool :=
  (o.value, o.set && !o.null)

/-- Method `Any`: the value as `interface{}`. -/
def Optional.Any {T : Type} [ToAny T] (o : Optional T) : GoAny × Bool :=
  if !o.set || o.null then (GoAny.nil, false)
  else (ToAny.toAny o.value, true)

/-- Function `SetUpdate(m, column, o)`: returns the map after the call. -/
def SetUpdate {T : Type} [ToAny T] (m : GoMap) (column : String) (o : Optional T) : GoMap :=
  if !o.IsSet then m
  else if o.IsNull then m.assign column GoAny.nil
  else
    match o.Value with
    | (v, true) => m.assign column (ToAny.toAny v)
    | (_, false) => m

/-- The receiver left by a sequence of `UnmarshalJSON` calls, one per element of `bs`,
starting from `o`; calls that return an error count like the others. -/
def Optional.unmarshalAll {T E : Type} [GoZero T] (lib : JSONLib T E) (o : Optional T)
    (bs : List Bytes) : Optional T :=
  bs.foldl (fun acc b => (acc.UnmarshalJSON lib b).2) o

/-! ## A concrete library instance for evaluating the definitions -/

/-- The ASCII white space of `bytes.TrimSpace`: tab, newline, vertical tab, form feed,
carriage return, space. -/
def isAsciiSpace (c : UInt8) : Bool :=
  c = 0x09 || c = 0x0a || c = 0x0b || c = 0x0c || c = 0x0d || c = 0x20

/-- Trimming of leading and trailing ASCII white space. -/
def asciiTrimSpace (b : Bytes) : Bytes :=
  ((b.dropWhile isAsciiSpace).reverse.dropWhile isAsciiSpace).reverse

/-- A decoder of the JSON literals `true` and `false` into a Go `bool`; any other
input is an error and leaves the target as it was. -/
def unmarshalBool (b : Bytes) (cur : Bool) : Option String × Bool :=
  if asciiTrimSpace b = [0x74, 0x72, 0x75, 0x65] then (none, true)
  else if asciiTrimSpace b = [0x66, 0x61, 0x6c, 0x73, 0x65] then (none, false)
  else (some "cannot unmarshal into Go value of type bool", cur)

/-- The library instance made of the two routines above. -/
def boolLib : JSONLib Bool String := ⟨asciiTrimSpace, unmarshalBool⟩

/-! ## `models.User` and `models.PatchUserDTO` -/

/-- User model (`models.User`); `Phone` is the nullable `*string`. -/
structure User where
  ID : Nat
  Name : String
  Email : String
  Age : Int
  Phone : Option String
  Active : Bool
  Bio : String
  Role : String
  Score : Float64
deriving DecidableEq, Repr

instance : GoZero User := ⟨⟨0, "", "", 0, none, false, "", "", GoZero.zero⟩⟩

/-- Request body of PATCH (`models.PatchUserDTO`): seven tri-state fields and no
email field. -/
structure PatchUserDTO where
  Name : Optional String
  Age : Optional Int
  Phone : Optional String
  Active : Optional Bool
  Bio : Optional String
  Role : Optional String
  Score : Optional Float64
deriving DecidableEq, Repr

instance : GoZero PatchUserDTO :=
  ⟨⟨GoZero.zero, GoZero.zero, GoZero.zero, GoZero.zero, GoZero.zero, GoZero.zero, GoZero.zero⟩⟩

/-- The fields of `PatchUserDTO`. -/
inductive DTOField where
  | Name | Age | Phone | Active | Bio | Role | Score
deriving DecidableEq, Repr

/-- What `encoding/json` contributes to decoding a request body into a `PatchUserDTO`:
the scan of the body into the members (key, raw value) of its top-level object, in
order, or a syntax or type error; the field a key selects through the `json` tags,
`none` for a key that selects no field; `bytes.TrimSpace`; and `json.Unmarshal` at the
four value types. -/
structure JSONDecoder (E : Type) where
  members : Bytes → Except E (List (String × Bytes))
  field : String → Option DTOField
  TrimSpace : Bytes → Bytes
  UnmarshalString : Bytes → String → Option E × String
  UnmarshalInt : Bytes → Int → Option E × Int
  UnmarshalBool : Bytes → Bool → Option E × Bool
  UnmarshalFloat64 : Bytes → Float64 → Option E × Float64

/-- The library routines seen by an `Optional[string]`. -/
def JSONDecoder.stringLib {E : Type} (d : JSONDecoder E) : JSONLib String E :=
  ⟨d.TrimSpace, d.UnmarshalString⟩

/-- The library routines seen by an `Optional[int]`. -/
def JSONDecoder.intLib {E : Type} (d : JSONDecoder E) : JSONLib Int E :=
  ⟨d.TrimSpace, d.UnmarshalInt⟩

/-- The library routines seen by an `Optional[bool]`. -/
def JSONDecoder.boolLib {E : Type} (d : JSONDecoder E) : JSONLib Bool E :=
  ⟨d.TrimSpace, d.UnmarshalBool⟩

/-- The library routines seen by an `Optional[float64]`. -/
def JSONDecoder.float64Lib {E : Type} (d : JSONDecoder E) : JSONLib Float64 E :=
  ⟨d.TrimSpace, d.UnmarshalFloat64⟩

/-- Decoding of one object member into the DTO: the selected field has its
`UnmarshalJSON` called with the raw value; a key that selects no field is skipped. -/
def PatchUserDTO.decodeMember {E : Type} (d : JSONDecoder E) (dto : PatchUserDTO)
    (kv : String × Bytes) : Option E × PatchUserDTO :=
  match d.field kv.1 with
  | none => (none, dto)
  | some DTOField.Name =>
    let r := dto.Name.UnmarshalJSON d.stringLib kv.2
    (r.1, { dto with Name := r.2 })
  | some DTOField.Age =>
    let r := dto.Age.UnmarshalJSON d.intLib kv.2
    (r.1, { dto with Age := r.2 })
  | some DTOField.Phone =>
    let r := dto.Phone.UnmarshalJSON d.stringLib kv.2
    (r.1, { dto with Phone := r.2 })
  | some DTOField.Active =>
    let r := dto.Active.UnmarshalJSON d.boolLib kv.2
    (r.1, { dto with Active := r.2 })
  | some DTOField.Bio =>
    let r := dto.Bio.UnmarshalJSON d.stringLib kv.2
    (r.1, { dto with Bio := r.2 })
  | some DTOField.Role =>
    let r := dto.Role.UnmarshalJSON d.stringLib kv.2
    (r.1, { dto with Role := r.2 })
  | some DTOField.Score =>
    let r := dto.Score.UnmarshalJSON d.float64Lib kv.2
    (r.1, { dto with Score := r.2 })

/-- Decoding of the members in order; the first error returned by the `UnmarshalJSON` of a
field stops the decoding and is its result. -/
def PatchUserDTO.decodeMembers {E : Type} (d : JSONDecoder E) :
    PatchUserDTO → List (String × Bytes) → Option E × PatchUserDTO
  | dto, [] => (none, dto)
  | dto, kv :: rest =>
    match PatchUserDTO.decodeMember d dto kv with
    | (some e, dto1) => (some e, dto1)
    | (none, dto1) => PatchUserDTO.decodeMembers d dto1 rest

/-- The call `json.NewDecoder(r.Body).Decode(&dto)` on a zero `dto`. -/
def PatchUserDTO.Decode {E : Type} (d : JSONDecoder E) (body : Bytes) : Except E PatchUserDTO :=
  match d.members body with
  | Except.error e => Except.error e
  | Except.ok ms =>
    match PatchUserDTO.decodeMembers d GoZero.zero ms with
    | (some e, _) => Except.error e
    | (none, dto) => Except.ok dto

/-! ## `validation.ValidateStruct` -/

/-- What the handler reads of a `validator.FieldError`. -/
structure FieldError where
  Field : String
  Tag : String
  Param : String
deriving DecidableEq, Repr

/-- One entry of the `errors` array of a validation response. -/
structure ErrorEntry where
  field : String
  tag : String
  message : String
deriving DecidableEq, Repr

/-- Function `GetValidationMessage`: a user-friendly validation message. -/
def GetValidationMessage (err : FieldError) : String :=
  if err.Tag = "required" then err.Field ++ " is required"
  else if err.Tag = "email" then err.Field ++ " must be a valid email address"
  else if err.Tag = "min" then err.Field ++ " must be at least " ++ err.Param ++ " characters"
  else if err.Tag = "max" then err.Field ++ " must be at most " ++ err.Param ++ " characters"
  else if err.Tag = "opt" then
    if err.Param ≠ "" then err.Field ++ " failed validation: " ++ err.Param
    else err.Field ++ " is invalid"
  else if err.Tag = "nonull" then err.Field ++ " cannot be null"
  else if err.Tag = "gte" then err.Field ++ " must be greater than or equal to " ++ err.Param
  else if err.Tag = "lte" then err.Field ++ " must be less than or equal to " ++ err.Param
  else if err.Tag = "gt" then err.Field ++ " must be greater than " ++ err.Param
  else if err.Tag = "lt" then err.Field ++ " must be less than " ++ err.Param
  else err.Field ++ " is invalid"

/-- What a handler writes as the response body. -/
inductive Body where
  | text (msg : String)
  | validation (errors : List ErrorEntry)
  | user (u : User)
deriving DecidableEq, Repr

/-- A written HTTP response: status code and body. -/
structure Response where
  status : Nat
  body : Body
deriving DecidableEq, Repr

/-- Function `ValidateStruct(w, s)`. `run` is the library call `Validate.Struct`, `none`
being a nil error. The result is `none` when the function returns true without writing,
and the response it wrote when it returns false. -/
def ValidateStruct {α : Type} (run : α → Option (List FieldError)) (s : α) : Option Response :=
  match run s with
  | some errs =>
    some ⟨400, Body.validation
      (errs.map (fun err => ⟨err.Field, err.Tag, GetValidationMessage err⟩))⟩
  | none => none

/-! ## `handlers.PatchUser` -/

/-- The error of a gorm result as the handler tells it apart: `gorm.ErrRecordNotFound`,
or another error with its message. -/
inductive DBError where
  | recordNotFound
  | other (msg : String)
deriving DecidableEq, Repr

/-- The collaborators of the handler, over a store state `σ`: `strconv.ParseUint(s, 10, 32)`;
`DB.First(&user, id)`, from the store, the current content of `user` and the id to the
error and the content of `user` afterwards; the request decoder, its error given by its
message; `Validate.Struct`; and `DB.Model(&user).Updates(updates)`, to the error, the
content of `user` and the store afterwards. -/
structure Env (σ : Type) where
  ParseUint : String → Option Nat
  First : σ → User → Nat → Option DBError × User
  Decode : Bytes → Except String PatchUserDTO
  Struct : PatchUserDTO → Option (List FieldError)
  Updates : σ → User → GoMap → Option DBError × User × σ

/-- What a run of the handler leaves: the response, the store, and the mappings passed
to `Updates`, in order (the storage writes issued). -/
structure Outcome (σ : Type) where
  resp : Response
  db : σ
  writes : List GoMap

/-- The update mapping `PatchUser` builds: the seven `SetUpdate` calls on
`make(map[string]interface{})`. -/
def PatchUser.buildUpdates (dto : PatchUserDTO) : GoMap :=
  let updates : GoMap := []
  let updates := SetUpdate updates "name" dto.Name
  let updates := SetUpdate updates "age" dto.Age
  let updates := SetUpdate updates "phone" dto.Phone
  let updates := SetUpdate updates "active" dto.Active
  let updates := SetUpdate updates "bio" dto.Bio
  let updates := SetUpdate updates "role" dto.Role
  let updates := SetUpdate updates "score" dto.Score
  updates

/-- The message of a store error (`result.Error.Error()`). -/
def DBError.Error : DBError → String
  | DBError.recordNotFound => "record not found"
  | DBError.other msg => msg

/-- Handler `PatchUser` for `PATCH /users/{id}`, on the path variable `id` and the
request body. -/
def PatchUser {σ : Type} (env : Env σ) (db : σ) (id : String) (body : Bytes) : Outcome σ :=
  match env.ParseUint id with
  | none => ⟨⟨400, Body.text "Invalid user ID"⟩, db, []⟩
  | some n =>
    match env.First db GoZero.zero n with
    | (some DBError.recordNotFound, _) => ⟨⟨404, Body.text "User not found"⟩, db, []⟩
    | (some (DBError.other msg), _) => ⟨⟨500, Body.text msg⟩, db, []⟩
    | (none, user) =>
      match env.Decode body with
      | Except.error msg => ⟨⟨400, Body.text msg⟩, db, []⟩
      | Except.ok dto =>
        match ValidateStruct env.Struct dto with
        | some resp => ⟨resp, db, []⟩
        | none =>
          let updates := PatchUser.buildUpdates dto
          if updates.len = 0 then ⟨⟨400, Body.text "No fields to update"⟩, db, []⟩
          else
            match env.Updates db user updates with
            | (some err, _, db1) => ⟨⟨500, Body.text err.Error⟩, db1, [updates]⟩
            | (none, user1, db1) =>
              ⟨⟨200, Body.user (env.First db1 user1 n).2⟩, db1, [updates]⟩

/-! ## A concrete decoder, validator and store for evaluating the handler -/

/-- The bytes of an ASCII string. -/
def ascii (s : String) : Bytes :=
  s.data.map (fun c => c.toNat.toUInt8)

/-- The string of ASCII bytes. -/
def asciiString (b : Bytes) : String :=
  String.mk (b.map (fun c => Char.ofNat c.toNat))

/-- Splitting of a byte string at each occurrence of `sep`. -/
def splitBytes (sep : UInt8) : Bytes → List Bytes
  | [] => [[]]
  | c :: rest =>
    match splitBytes sep rest with
    | [] => [[c]]
    | piece :: pieces => if c = sep then [] :: piece :: pieces else (c :: piece) :: pieces

/-- The text between the double quotes of a quoted token, `none` when the token is
not quoted. -/
def unquote (b : Bytes) : Option Bytes :=
  match asciiTrimSpace b with
  | 0x22 :: rest =>
    match rest.reverse with
    | 0x22 :: inner => some inner.reverse
    | _ => none
  | _ => none

/-- One `"key": value` member of a flat object. -/
def sampleMember (piece : Bytes) : Except String (String × Bytes) :=
  match splitBytes 0x3a piece with
  | [k, v] =>
    match unquote k with
    | some key => Except.ok (asciiString key, asciiTrimSpace v)
    | none => Except.error "invalid character looking for beginning of object key string"
  | _ => Except.error "invalid character after object key"

/-- A scanner of flat JSON objects whose keys and values contain no comma, colon,
brace or escape. -/
def sampleMembers (body : Bytes) : Except String (List (String × Bytes)) :=
  match asciiTrimSpace body with
  | 0x7b :: rest =>
    match rest.reverse with
    | 0x7d :: inner =>
      if asciiTrimSpace inner = [] then Except.ok []
      else (splitBytes 0x2c inner.reverse).mapM sampleMember
    | _ => Except.error "unexpected end of JSON input"
  | _ => Except.error "invalid character looking for beginning of value"

/-- Exact match of a key against the `json` tags of `PatchUserDTO`. -/
def sampleField (key : String) : Option DTOField :=
  if key = "name" then some DTOField.Name
  else if key = "age" then some DTOField.Age
  else if key = "phone" then some DTOField.Phone
  else if key = "active" then some DTOField.Active
  else if key = "bio" then some DTOField.Bio
  else if key = "role" then some DTOField.Role
  else if key = "score" then some DTOField.Score
  else none

/-- A decoder of escape-free JSON strings. -/
def unmarshalString (b : Bytes) (cur : String) : Option String × String :=
  match unquote b with
  | some inner => (none, asciiString inner)
  | none => (some "cannot unmarshal into Go value of type string", cur)

/-- The value of a run of decimal digits, `none` when a byte is not a digit. -/
def digitsValue : Bytes → Nat → Option Nat
  | [], acc => some acc
  | c :: rest, acc =>
    if 0x30 ≤ c.toNat ∧ c.toNat ≤ 0x39 then digitsValue rest (10 * acc + (c.toNat - 0x30))
    else none

/-- A decoder of decimal integer literals that fit a 64-bit Go `int`. -/
def unmarshalInt (b : Bytes) (cur : Int) : Option String × Int :=
  let fail : Option String × Int := (some "cannot unmarshal into Go value of type int", cur)
  match asciiTrimSpace b with
  | [] => fail
  | 0x2d :: ds =>
    match ds, digitsValue ds 0 with
    | _ :: _, some n => if n ≤ 2 ^ 63 then (none, - (n : Int)) else fail
    | _, _ => fail
  | ds =>
    match digitsValue ds 0 with
    | some n => if n < 2 ^ 63 then (none, (n : Int)) else fail
    | none => fail

/-- A decoder of the single float literal `0`. -/
def unmarshalFloat64 (b : Bytes) (cur : Float64) : Option String × Float64 :=
  if asciiTrimSpace b = [0x30] then (none, ⟨0⟩)
  else (some "cannot unmarshal into Go value of type float64", cur)

/-- The sample decoder. -/
def sampleDecoder : JSONDecoder String :=
  ⟨sampleMembers, sampleField, asciiTrimSpace, unmarshalString, unmarshalInt, unmarshalBool,
    unmarshalFloat64⟩

/-- Lookup of a record by primary key in a list of rows. -/
def sampleFirst (db : List User) (cur : User) (id : Nat) : Option DBError × User :=
  match db.find? (fun u => u.ID = id) with
  | some u => (none, u)
  | none => (some DBError.recordNotFound, cur)

/-- The effect of one column assignment on a row. -/
def sampleSetColumn (u : User) (kv : String × GoAny) : User :=
  match kv with
  | ("name", GoAny.str s) => { u with Name := s }
  | ("age", GoAny.int n) => { u with Age := n }
  | ("phone", GoAny.str s) => { u with Phone := some s }
  | ("phone", GoAny.nil) => { u with Phone := none }
  | ("active", GoAny.bool b) => { u with Active := b }
  | ("bio", GoAny.str s) => { u with Bio := s }
  | ("role", GoAny.str s) => { u with Role := s }
  | ("score", GoAny.float f) => { u with Score := f }
  | _ => u

/-- A store write that assigns the columns of the mapping to the row of `cur.ID`. -/
def sampleUpdates (db : List User) (cur : User) (m : GoMap) : Option DBError × User × List User :=
  (none, m.foldl sampleSetColumn cur,
    db.map (fun u => if u.ID = cur.ID then m.foldl sampleSetColumn u else u))

/-- Decimal identifiers below `2 ^ 32`. -/
def sampleParseUint (s : String) : Option Nat :=
  match s.data with
  | [] => none
  | _ :: _ =>
    match digitsValue (ascii s) 0 with
    | some n => if n < 2 ^ 32 then some n else none
    | none => none

/-- The sample environment: the sample decoder, a validator that accepts every
request, and a list of rows as store. -/
def sampleEnv : Env (List User) :=
  ⟨sampleParseUint, sampleFirst, PatchUserDTO.Decode sampleDecoder, fun _ => none, sampleUpdates⟩

/-- A stored user. -/
def sampleUser : User :=
  ⟨1, "Old", "old@example.com", 30, some "1234567890", true, "bio", "user", ⟨0⟩⟩

/-! ## `validation.RegisterPatchValidators` -/

/-- A value behind the interface `patch.OptionalAny`, given by the results of its three
methods. -/
structure OptionalAny where
  IsSet : Bool
  IsNull : Bool
  Any : GoAny × Bool
deriving DecidableEq, Repr

/-- An `Optional[T]` seen through the interface `patch.OptionalAny`. -/
def Optional.toOptionalAny {T : Type} [ToAny T] (o : Optional T) : OptionalAny :=
  ⟨o.IsSet, o.IsNull, o.Any⟩

/-- What `fl.Field()` is for a validation function: a nil pointer (`toOptional` tells
whether its type is `*Optional[T]`), a non-nil pointer, or a value that is no pointer.
The target is `some oa` when the value, or the value pointed to, is an `Optional[T]`,
and `none` for every other type. -/
inductive FieldValue where
  | nilPtr (toOptional : Bool)
  | ptr (target : Option OptionalAny)
  | value (target : Option OptionalAny)
deriving DecidableEq, Repr

/-- Go `strings.ReplaceAll(s, old, new)` for patterns of one character. -/
def stringsReplaceAll (s : String) (old new : Char) : String :=
  String.mk (s.data.map (fun c => if c = old then new else c))

/-- The validation function registered for the tag `opt`. `Var` is the library call
`tmpValidator.Var(val, rules) == nil` on a fresh validator; the characters `0x3b` and
`0x2c` are the semicolon and the comma. -/
def opt (Var : GoAny → String → Bool) (fieldVal : FieldValue) (param : String) : Bool :=
  match fieldVal with
  | FieldValue.nilPtr _ => true
  | FieldValue.ptr none => true
  | FieldValue.value none => true
  | FieldValue.ptr (some oa) | FieldValue.value (some oa) =>
    if !oa.IsSet || oa.IsNull then true
    else
      match oa.Any with
      | (_, false) => true
      | (val, true) =>
        if param = "" then true
        else Var val (stringsReplaceAll param (Char.ofNat 0x3b) (Char.ofNat 0x2c))

/-- The check of one tagged field by `Validate.Struct`: the function of the tag `opt` is
run on the field with the parameter of the tag, and a failure is reported under the name
of the struct field, the tag and the parameter. -/
def checkOpt (Var : GoAny → String → Bool) (name : String) (o : OptionalAny)
    (param : String) : List FieldError :=
  if opt Var (FieldValue.value (some o)) param then [] else [⟨name, "opt", param⟩]

/-- The library call `Validate.Struct(dto)` on a `PatchUserDTO`, for the validator set up
by `InitValidator` and the `validate` tags of `models.PatchUserDTO`: the tagged fields
are checked in declaration order (`Active` carries no tag), the failures are collected,
and the error is nil (`none`) when there is none. -/
def PatchUserDTO.Struct (Var : GoAny → String → Bool) (dto : PatchUserDTO) :
    Option (List FieldError) :=
  let errs :=
    checkOpt Var "Name" dto.Name.toOptionalAny "min=2;max=100" ++
    checkOpt Var "Age" dto.Age.toOptionalAny "gte=0;lte=150" ++
    checkOpt Var "Phone" dto.Phone.toOptionalAny "min=10;max=20" ++
    checkOpt Var "Bio" dto.Bio.toOptionalAny "max=500" ++
    checkOpt Var "Role" dto.Role.toOptionalAny "oneof=admin user guest" ++
    checkOpt Var "Score" dto.Score.toOptionalAny "gte=0;lte=100"
  match errs with
  | [] => none
  | e :: rest => some (e :: rest)

/-- The state of a field of the DTO: the set flag, the null flag and the stored value. -/
def PatchUserDTO.fieldState (dto : PatchUserDTO) : DTOField → Bool × Bool × GoAny
  | DTOField.Name => (dto.Name.set, dto.Name.null, ToAny.toAny dto.Name.value)
  | DTOField.Age => (dto.Age.set, dto.Age.null, ToAny.toAny dto.Age.value)
  | DTOField.Phone => (dto.Phone.set, dto.Phone.null, ToAny.toAny dto.Phone.value)
  | DTOField.Active => (dto.Active.set, dto.Active.null, ToAny.toAny dto.Active.value)
  | DTOField.Bio => (dto.Bio.set, dto.Bio.null, ToAny.toAny dto.Bio.value)
  | DTOField.Role => (dto.Role.set, dto.Role.null, ToAny.toAny dto.Role.value)
  | DTOField.Score => (dto.Score.set, dto.Score.null, ToAny.toAny dto.Score.value)

/-! ## A concrete rule evaluator for evaluating the validators -/

/-- Splitting of a character list at each occurrence of `sep`. -/
def splitChars (sep : Char) : List Char → List (List Char)
  | [] => [[]]
  | c :: rest =>
    match splitChars sep rest with
    | [] => [[c]]
    | piece :: pieces => if c = sep then [] :: piece :: pieces else (c :: piece) :: pieces

/-- A rule `tag=param` as the pair of its tag and its parameter. -/
def parseRule (rule : List Char) : String × String :=
  (String.mk (rule.takeWhile (fun c => c ≠ Char.ofNat 0x3d)),
    String.mk ((rule.dropWhile (fun c => c ≠ Char.ofNat 0x3d)).drop 1))

/-- The rules of a comma-separated rule string. -/
def parseRules (rules : String) : List (String × String) :=
  (splitChars (Char.ofNat 0x2c) rules.data).map parseRule

/-- The built-in rules `min` and `max` on the number of characters of a string, `gte` and
`lte` on an int, and `oneof` on a string, for parameters without sign; every other
combination of rule and value counts as a failure. -/
def sampleRule (tag param : String) (v : GoAny) : Bool :=
  match v with
  | GoAny.str s =>
    if tag = "min" then
      match digitsValue (ascii param) 0 with
      | some p => decide (p ≤ s.data.length)
      | none => false
    else if tag = "max" then
      match digitsValue (ascii param) 0 with
      | some p => decide (s.data.length ≤ p)
      | none => false
    else if tag = "oneof" then
      ((splitChars (Char.ofNat 0x20) param.data).map String.mk).contains s
    else false
  | GoAny.int n =>
    if tag = "gte" then
      match digitsValue (ascii param) 0 with
      | some p => decide ((p : Int) ≤ n)
      | none => false
    else if tag = "lte" then
      match digitsValue (ascii param) 0 with
      | some p => decide (n ≤ (p : Int))
      | none => false
    else false
  | _ => false

/-- A rule evaluator in the place of `Var`: every rule of the string holds of the value. -/
def sampleVar (v : GoAny) (rules : String) : Bool :=
  (parseRules rules).all (fun r => sampleRule r.1 r.2 v)

/-- The tag of the first rule of the string, in declared order, that fails on the value. -/
def sampleFirstFailing (v : GoAny) (rules : String) : Option String :=
  ((parseRules rules).find? (fun r => !sampleRule r.1 r.2 v)).map Prod.fst

/-- The sample environment with the validation of `InitValidator` over the sample rules. -/
def sampleValidatingEnv : Env (List User) :=
  ⟨sampleParseUint, sampleFirst, PatchUserDTO.Decode sampleDecoder,
    PatchUserDTO.Struct sampleVar, sampleUpdates⟩

/-! ## Lemmas on maps -/

namespace GoMap

theorem get_assign_self (m : GoMap) (k : String) (v : GoAny) :
    (m.assign k v).get k = some v := by
  induction m with
  | nil => simp [GoMap.assign, GoMap.get]
  | cons e rest ih =>
    obtain ⟨k1, v1⟩ := e
    by_cases h : k1 = k
    · simp [GoMap.assign, GoMap.get, h]
    · simp [GoMap.assign, GoMap.get, h, ih]

theorem get_assign_ne (m : GoMap) (k j : String) (v : GoAny) (hj : j ≠ k) :
    (m.assign k v).get j = m.get j := by
  induction m with
  | nil =>
    have hk : ¬ k = j := fun h => hj h.symm
    simp [GoMap.assign, GoMap.get, hk]
  | cons e rest ih =>
    obtain ⟨k1, v1⟩ := e
    by_cases h : k1 = k
    · have hk : ¬ k = j := fun h => hj h.symm
      subst h
      simp [GoMap.assign, GoMap.get, hk]
    · by_cases h1 : k1 = j
      · subst h1
        simp [GoMap.assign, GoMap.get, h]
      · simp [GoMap.assign, GoMap.get, h, h1, ih]

theorem mem_keys_assign (m : GoMap) (k j : String) (v : GoAny) :
    j ∈ (m.assign k v).keys ↔ j = k ∨ j ∈ m.keys := by
  induction m with
  | nil => simp [GoMap.assign, GoMap.keys]
  | cons e rest ih =>
    obtain ⟨k1, v1⟩ := e
    by_cases h : k1 = k
    · subst h
      simp [GoMap.assign, GoMap.keys]
    · have ih1 : j ∈ List.map Prod.fst (GoMap.assign rest k v) ↔
          j = k ∨ j ∈ List.map Prod.fst rest := ih
      simp only [GoMap.assign, GoMap.keys, h, if_false, List.map_cons, List.mem_cons, ih1]
      tauto

end GoMap

/-- The keys after `SetUpdate`: the old keys, and `column` when the Optional is set. -/
theorem mem_keys_SetUpdate {T : Type} [ToAny T] (m : GoMap) (c j : String) (o : Optional T) :
    j ∈ (SetUpdate m c o).keys ↔ (j = c ∧ o.IsSet = true) ∨ j ∈ m.keys := by
  obtain ⟨s, n, v⟩ := o
  cases s <;> cases n <;>
    simp [SetUpdate, Optional.IsSet, Optional.IsNull, Optional.Value, GoMap.mem_keys_assign]

/-! ## `SetUpdate` -/

/-- C1: for every map `m`, column `c` and Optional `o` in the Unset state
(`IsSet() = false`), `SetUpdate(m, c, o)` leaves `m` exactly unchanged; every key keeps
its binding and `c` is a key afterwards only if it was one before. -/
theorem SetUpdate_unset_unchanged {T : Type} [ToAny T] (m : GoMap) (c : String)
    (o : Optional T) (h : o.IsSet = false) :
    SetUpdate m c o = m ∧
    (∀ k, (SetUpdate m c o).get k = m.get k) ∧
    (c ∈ (SetUpdate m c o).keys → c ∈ m.keys) := by
  have e : SetUpdate m c o = m := by simp [SetUpdate, h]
  rw [e]
  exact ⟨rfl, fun _ => rfl, fun hc => hc⟩

theorem SetUpdate_unset_unchanged_witness :
    (⟨false, false, "x"⟩ : Optional String).IsSet = false ∧
    SetUpdate [("age", GoAny.int 3)] "name" (⟨false, false, "x"⟩ : Optional String)
      = [("age", GoAny.int 3)] :=
  ⟨by decide,
    (SetUpdate_unset_unchanged [("age", GoAny.int 3)] "name"
      (⟨false, false, "x"⟩ : Optional String) (by decide)).1⟩

/-- C2: for every map `m`, column `c` and present Optional `o` (`IsSet() = true`), after
`SetUpdate(m, c, o)` the column `c` is bound to the nil interface when `o` is Null and to
exactly `v` when `o` is Value(v), every other key keeps its previous binding, and the
keys are the old keys together with `c`. -/
theorem SetUpdate_present_rebinds {T : Type} [ToAny T] (m : GoMap) (c : String)
    (o : Optional T) (h : o.IsSet = true) :
    (o.IsNull = true → (SetUpdate m c o).get c = some GoAny.nil) ∧
    (∀ v, o.Value = (v, true) → (SetUpdate m c o).get c = some (ToAny.toAny v)) ∧
    (o.IsNull = true ∨ o.Value.2 = true) ∧
    (∀ k, k ≠ c → (SetUpdate m c o).get k = m.get k) ∧
    (∀ k, k ∈ (SetUpdate m c o).keys ↔ k = c ∨ k ∈ m.keys) := by
  obtain ⟨s, n, x⟩ := o
  have hs : s = true := h
  subst hs
  refine ⟨?_, ?_, ?_, ?_, ?_⟩
  · intro hn
    have hn1 : n = true := by simpa [Optional.IsNull] using hn
    subst hn1
    simp [SetUpdate, Optional.IsSet, Optional.IsNull, GoMap.get_assign_self]
  · intro v hv
    have hv1 : x = v ∧ n = false := by simpa [Optional.Value] using hv
    obtain ⟨hx, hn⟩ := hv1
    subst hx
    subst hn
    simp [SetUpdate, Optional.IsSet, Optional.IsNull, Optional.Value, GoMap.get_assign_self]
  · cases n <;> simp [Optional.IsNull, Optional.Value]
  · intro k hk
    cases n <;>
      simp [SetUpdate, Optional.IsSet, Optional.IsNull, Optional.Value,
        GoMap.get_assign_ne _ _ _ _ hk]
  · intro k
    rw [mem_keys_SetUpdate]
    simp [Optional.IsSet]

theorem SetUpdate_present_rebinds_witness :
    (⟨true, false, "X"⟩ : Optional String).IsSet = true ∧
    (SetUpdate [("name", GoAny.str "Old"), ("age", GoAny.int 3)] "name"
      (⟨true, false, "X"⟩ : Optional String)).get "name" = some (GoAny.str "X") ∧
    (SetUpdate [("name", GoAny.str "Old"), ("age", GoAny.int 3)] "name"
      (⟨true, false, "X"⟩ : Optional String)).get "age" = some (GoAny.int 3) :=
  ⟨by decide,
    (SetUpdate_present_rebinds [("name", GoAny.str "Old"), ("age", GoAny.int 3)] "name"
      (⟨true, false, "X"⟩ : Optional String) (by decide)).2.1 "X" (by decide),
    by
      have hk := (SetUpdate_present_rebinds [("name", GoAny.str "Old"), ("age", GoAny.int 3)]
        "name" (⟨true, false, "X"⟩ : Optional String) (by decide)).2.2.2.1 "age" (by decide)
      rw [hk]
      decide⟩

/-! ## `Optional.UnmarshalJSON` and the accessors -/

/-- C3: for every Optional `o`, whatever its prior state, and every byte string `b` that
equals `null` once trimmed, `o.UnmarshalJSON(b)` returns no error and leaves `o` in the
Null state: `IsSet()` and `IsNull()` are true, the stored value is the zero value, and
`Value()` returns `(zero, false)`. -/
theorem UnmarshalJSON_null {T E : Type} [GoZero T] (lib : JSONLib T E) (o : Optional T)
    (b : Bytes) (h : lib.TrimSpace b = nullLiteral) :
    (o.UnmarshalJSON lib b).1 = none ∧
    (o.UnmarshalJSON lib b).2.IsSet = true ∧
    (o.UnmarshalJSON lib b).2.IsNull = true ∧
    (o.UnmarshalJSON lib b).2.value = GoZero.zero ∧
    (o.UnmarshalJSON lib b).2.Value = (GoZero.zero, false) := by
  simp [Optional.UnmarshalJSON, h, Optional.IsSet, Optional.IsNull, Optional.Value]

theorem UnmarshalJSON_null_witness :
    boolLib.TrimSpace [0x20, 0x6e, 0x75, 0x6c, 0x6c, 0x0a] = nullLiteral ∧
    ((⟨true, false, true⟩ : Optional Bool).UnmarshalJSON boolLib
      [0x20, 0x6e, 0x75, 0x6c, 0x6c, 0x0a]).2.Value = (false, false) :=
  ⟨by decide,
    (UnmarshalJSON_null boolLib (⟨true, false, true⟩ : Optional Bool)
      [0x20, 0x6e, 0x75, 0x6c, 0x6c, 0x0a] (by decide)).2.2.2.2⟩

/-- C4: for every byte string `b` that is not `null` after trimming and that decodes
successfully as a `T` with result `v`, `UnmarshalJSON(b)` on a fresh Optional returns no
error and leaves it in the Value(v) state: `IsSet() = true`, `IsNull() = false` and
`Value() = (v, true)`. -/
theorem UnmarshalJSON_value {T E : Type} [GoZero T] (lib : JSONLib T E) (b : Bytes) (v : T)
    (hn : lib.TrimSpace b ≠ nullLiteral) (hd : lib.Unmarshal b GoZero.zero = (none, v)) :
    ((GoZero.zero : Optional T).UnmarshalJSON lib b).1 = none ∧
    ((GoZero.zero : Optional T).UnmarshalJSON lib b).2.IsSet = true ∧
    ((GoZero.zero : Optional T).UnmarshalJSON lib b).2.IsNull = false ∧
    ((GoZero.zero : Optional T).UnmarshalJSON lib b).2.Value = (v, true) := by
  have hz : (GoZero.zero : Optional T) = ⟨false, false, GoZero.zero⟩ := rfl
  simp [Optional.UnmarshalJSON, hn, hz, hd, Optional.IsSet, Optional.IsNull, Optional.Value]

theorem UnmarshalJSON_value_witness :
    boolLib.TrimSpace [0x74, 0x72, 0x75, 0x65] ≠ nullLiteral ∧
    boolLib.Unmarshal [0x74, 0x72, 0x75, 0x65] GoZero.zero = (none, true) ∧
    ((GoZero.zero : Optional Bool).UnmarshalJSON boolLib [0x74, 0x72, 0x75, 0x65]).2.Value
      = (true, true) :=
  ⟨by decide, by decide,
    (UnmarshalJSON_value boolLib [0x74, 0x72, 0x75, 0x65] true (by decide) (by decide)).2.2.2⟩

/-- Decoding a list of members in two parts: the second part is decoded from where the
first part ended, unless the first part failed. -/
theorem decodeMembers_append {E : Type} (d : JSONDecoder E) (dto : PatchUserDTO)
    (pre post : List (String × Bytes)) (h : (PatchUserDTO.decodeMembers d dto pre).1 = none) :
    PatchUserDTO.decodeMembers d dto (pre ++ post) =
      PatchUserDTO.decodeMembers d (PatchUserDTO.decodeMembers d dto pre).2 post := by
  induction pre generalizing dto with
  | nil => simp [PatchUserDTO.decodeMembers]
  | cons kv rest ih =>
    rcases hm : PatchUserDTO.decodeMember d dto kv with ⟨err, dto1⟩
    cases err with
    | some e => simp [PatchUserDTO.decodeMembers, hm] at h
    | none =>
      simp only [PatchUserDTO.decodeMembers, hm, List.cons_append] at h ⊢
      exact ih dto1 h

/-- C5: `UnmarshalJSON(b)` returns an error exactly when `b` is not `null` after trimming
and decoding `b` as a `T` fails; the error is the inner decoder's error, and a null input
never gives an error. A member whose field fails to decode makes the decoding of the
whole request fail with that error, and `PatchUser` answers a failed request decode
with 400 and the error message, without a storage write. -/
theorem UnmarshalJSON_error_iff {T E : Type} [GoZero T] (lib : JSONLib T E) (o : Optional T)
    (b : Bytes) :
    ((o.UnmarshalJSON lib b).1 =
      if lib.TrimSpace b = nullLiteral then none else (lib.Unmarshal b o.value).1) ∧
    ((o.UnmarshalJSON lib b).1 ≠ none ↔
      lib.TrimSpace b ≠ nullLiteral ∧ (lib.Unmarshal b o.value).1 ≠ none) ∧
    (lib.TrimSpace b = nullLiteral → (o.UnmarshalJSON lib b).1 = none) ∧
    (∀ (d : JSONDecoder E) (body : Bytes) (pre post : List (String × Bytes))
      (kv : String × Bytes) (e : E),
      d.members body = Except.ok (pre ++ kv :: post) →
      (PatchUserDTO.decodeMembers d GoZero.zero pre).1 = none →
      (PatchUserDTO.decodeMember d (PatchUserDTO.decodeMembers d GoZero.zero pre).2 kv).1
        = some e →
      PatchUserDTO.Decode d body = Except.error e) ∧
    (∀ (σ : Type) (env : Env σ) (db : σ) (id : String) (body : Bytes) (n : Nat) (user : User)
      (msg : String),
      env.ParseUint id = some n → env.First db GoZero.zero n = (none, user) →
      env.Decode body = Except.error msg →
      (PatchUser env db id body).resp = ⟨400, Body.text msg⟩ ∧
      (PatchUser env db id body).db = db ∧
      (PatchUser env db id body).writes = []) := by
  refine ⟨?_, ?_, ?_, ?_, ?_⟩
  · by_cases h : lib.TrimSpace b = nullLiteral <;> simp [Optional.UnmarshalJSON, h]
  · by_cases h : lib.TrimSpace b = nullLiteral <;> simp [Optional.UnmarshalJSON, h]
  · intro h
    simp [Optional.UnmarshalJSON, h]
  · intro d body pre post kv e hm hpre hkv
    rcases hk : PatchUserDTO.decodeMember d (PatchUserDTO.decodeMembers d GoZero.zero pre).2 kv
      with ⟨err, dto1⟩
    rw [hk] at hkv
    have herr : err = some e := hkv
    subst herr
    simp [PatchUserDTO.Decode, hm, decodeMembers_append d GoZero.zero pre (kv :: post) hpre,
      PatchUserDTO.decodeMembers, hk]
  · intro σ env db id body n user msg hp hf hd
    simp [PatchUser, hp, hf, hd]

theorem UnmarshalJSON_error_iff_witness :
    sampleDecoder.members (ascii "\x7b\"name\": \"X\", \"active\": 1, \"age\": 2\x7d")
      = Except.ok ([("name", ascii "\"X\"")] ++ ("active", ascii "1") :: [("age", ascii "2")]) ∧
    PatchUserDTO.Decode sampleDecoder
      (ascii "\x7b\"name\": \"X\", \"active\": 1, \"age\": 2\x7d")
      = Except.error "cannot unmarshal into Go value of type bool" :=
  ⟨by rfl,
    (UnmarshalJSON_error_iff boolLib (GoZero.zero : Optional Bool) (ascii "1")).2.2.2.1
      sampleDecoder (ascii "\x7b\"name\": \"X\", \"active\": 1, \"age\": 2\x7d")
      [("name", ascii "\"X\"")] [("age", ascii "2")] ("active", ascii "1")
      "cannot unmarshal into Go value of type bool" (by rfl) (by decide) (by decide)⟩

/-- C6: an Optional on which `UnmarshalJSON` was never called (the zero value) is in the
Unset state: `IsSet() = false`, `IsNull() = false`, `Value()` returns `(zero, false)`
and `Any()` returns `(nil, false)`. -/
theorem zero_Optional_unset {T : Type} [GoZero T] [ToAny T] :
    (GoZero.zero : Optional T).IsSet = false ∧
    (GoZero.zero : Optional T).IsNull = false ∧
    (GoZero.zero : Optional T).Value = (GoZero.zero, false) ∧
    (GoZero.zero : Optional T).Any = (GoAny.nil, false) := by
  have hz : (GoZero.zero : Optional T) = ⟨false, false, GoZero.zero⟩ := rfl
  simp [hz, Optional.IsSet, Optional.IsNull, Optional.Value, Optional.Any]

/-- The null flag implies the set flag after any sequence of `UnmarshalJSON` calls, when
it did before. -/
theorem unmarshalAll_null_set {T E : Type} [GoZero T] (lib : JSONLib T E) (bs : List Bytes)
    (o : Optional T) (h : o.null = true → o.set = true) :
    (o.unmarshalAll lib bs).null = true → (o.unmarshalAll lib bs).set = true := by
  induction bs generalizing o with
  | nil => simpa [Optional.unmarshalAll] using h
  | cons b rest ih =>
    have hstep : (o.UnmarshalJSON lib b).2.set = true := by
      by_cases hb : lib.TrimSpace b = nullLiteral <;> simp [Optional.UnmarshalJSON, hb]
    have := ih (o.UnmarshalJSON lib b).2 (fun _ => hstep)
    simpa [Optional.unmarshalAll] using this

/-- C7: for every Optional value, `IsNull()` implies `IsSet()`, and exactly one of the
three states holds: Unset (`IsSet()` false), Null (`IsNull()` true), or Value (the
boolean of `Value()` true). For every Optional reached from the zero value by a sequence
of `UnmarshalJSON` calls, the null flag implies the set flag. -/
theorem Optional_tristate {T E : Type} [GoZero T] (lib : JSONLib T E) (o : Optional T) :
    (o.IsNull = true → o.IsSet = true) ∧
    ((o.IsSet = false ∧ o.IsNull = false ∧ o.Value.2 = false) ∨
     (o.IsSet = true ∧ o.IsNull = true ∧ o.Value.2 = false) ∨
     (o.IsSet = true ∧ o.IsNull = false ∧ o.Value.2 = true)) ∧
    (∀ bs : List Bytes,
      ((GoZero.zero : Optional T).unmarshalAll lib bs).null = true →
      ((GoZero.zero : Optional T).unmarshalAll lib bs).set = true) := by
  refine ⟨?_, ?_, ?_⟩
  · obtain ⟨s, n, v⟩ := o
    cases s <;> simp [Optional.IsNull, Optional.IsSet]
  · obtain ⟨s, n, v⟩ := o
    cases s <;> cases n <;> simp [Optional.IsNull, Optional.IsSet, Optional.Value]
  · intro bs
    apply unmarshalAll_null_set
    intro h
    exact absurd h (by simp [show (GoZero.zero : Optional T) = ⟨false, false, GoZero.zero⟩ from rfl])

theorem Optional_tristate_witness :
    (⟨true, true, false⟩ : Optional Bool).IsNull = true ∧
    (⟨true, true, false⟩ : Optional Bool).IsSet = true ∧
    ((GoZero.zero : Optional Bool).unmarshalAll boolLib
      [[0x74, 0x72, 0x75, 0x65], [0x31], nullLiteral]).null = true ∧
    ((GoZero.zero : Optional Bool).unmarshalAll boolLib
      [[0x74, 0x72, 0x75, 0x65], [0x31], nullLiteral]).set = true :=
  ⟨by decide,
    (Optional_tristate boolLib (⟨true, true, false⟩ : Optional Bool)).1 (by decide),
    by decide,
    (Optional_tristate boolLib (⟨true, true, false⟩ : Optional Bool)).2.2
      [[0x74, 0x72, 0x75, 0x65], [0x31], nullLiteral] (by decide)⟩

/-- C8: for every Optional `o`, `Any()` returns `(nil, false)` when `o` is Unset or Null
and `(v, true)` when `o` is Value(v); the boolean it returns equals the boolean returned
by `Value()`, and when that boolean is true the two returned values are the same. -/
theorem Any_agrees_with_Value {T : Type} [ToAny T] (o : Optional T) :
    ((o.IsSet = false ∨ o.IsNull = true) → o.Any = (GoAny.nil, false)) ∧
    (∀ v, o.Value = (v, true) → o.Any = (ToAny.toAny v, true)) ∧
    o.Any.2 = o.Value.2 ∧
    (o.Value.2 = true → o.Any.1 = ToAny.toAny o.Value.1) := by
  obtain ⟨s, n, x⟩ := o
  cases s <;> cases n <;> simp [Optional.IsSet, Optional.IsNull, Optional.Value, Optional.Any]

theorem Any_agrees_with_Value_witness :
    (⟨true, false, 7⟩ : Optional Int).Value = (7, true) ∧
    (⟨true, false, 7⟩ : Optional Int).Any = (GoAny.int 7, true) ∧
    (⟨true, true, 0⟩ : Optional Int).Any = (GoAny.nil, false) :=
  ⟨by decide,
    (Any_agrees_with_Value (⟨true, false, 7⟩ : Optional Int)).2.1 7 (by decide),
    (Any_agrees_with_Value (⟨true, true, 0⟩ : Optional Int)).1 (Or.inr (by decide))⟩

/-! ## The update mapping of `PatchUser` -/

/-- The keys of the update mapping: each column whose field is set, and nothing else. -/
theorem mem_keys_buildUpdates (dto : PatchUserDTO) (k : String) :
    k ∈ (PatchUser.buildUpdates dto).keys ↔
      (k = "name" ∧ dto.Name.IsSet = true) ∨ (k = "age" ∧ dto.Age.IsSet = true) ∨
      (k = "phone" ∧ dto.Phone.IsSet = true) ∨ (k = "active" ∧ dto.Active.IsSet = true) ∨
      (k = "bio" ∧ dto.Bio.IsSet = true) ∨ (k = "role" ∧ dto.Role.IsSet = true) ∨
      (k = "score" ∧ dto.Score.IsSet = true) := by
  simp only [PatchUser.buildUpdates, mem_keys_SetUpdate]
  simp only [GoMap.keys, List.map_nil, List.not_mem_nil, or_false]
  tauto

/-- The storage writes of a run of `PatchUser`: none, or one, of the mapping built from
the decoded body. -/
theorem PatchUser_writes {σ : Type} (env : Env σ) (db : σ) (id : String) (body : Bytes) :
    (PatchUser env db id body).writes = [] ∨
    ∃ dto, env.Decode body = Except.ok dto ∧
      (PatchUser env db id body).writes = [PatchUser.buildUpdates dto] := by
  unfold PatchUser
  split
  · exact Or.inl rfl
  · split
    · exact Or.inl rfl
    · exact Or.inl rfl
    · split
      · exact Or.inl rfl
      · rename_i dto hdto
        split
        · exact Or.inl rfl
        · dsimp only
          split
          · exact Or.inl rfl
          · split
            · exact Or.inr ⟨dto, hdto, rfl⟩
            · exact Or.inr ⟨dto, hdto, rfl⟩

/-- C10: for every request body, the update mapping built by `PatchUser` never contains
the key `email`: the keys of the mapping built from any DTO, and of every mapping a run
of `PatchUser` passes to the store, are among name, age, phone, active, bio, role and
score. -/
theorem updates_exclude_email :
    (∀ dto : PatchUserDTO,
      "email" ∉ (PatchUser.buildUpdates dto).keys ∧
      ∀ k, k ∈ (PatchUser.buildUpdates dto).keys →
        k ∈ ["name", "age", "phone", "active", "bio", "role", "score"]) ∧
    (∀ (σ : Type) (env : Env σ) (db : σ) (id : String) (body : Bytes) (m : GoMap),
      m ∈ (PatchUser env db id body).writes →
      "email" ∉ m.keys ∧
      ∀ k, k ∈ m.keys → k ∈ ["name", "age", "phone", "active", "bio", "role", "score"]) := by
  have hdto : ∀ dto : PatchUserDTO,
      "email" ∉ (PatchUser.buildUpdates dto).keys ∧
      ∀ k, k ∈ (PatchUser.buildUpdates dto).keys →
        k ∈ ["name", "age", "phone", "active", "bio", "role", "score"] := by
    intro dto
    constructor
    · simp [mem_keys_buildUpdates]
    · intro k hk
      rw [mem_keys_buildUpdates] at hk
      simp only [List.mem_cons, List.mem_singleton]
      tauto
  refine ⟨hdto, ?_⟩
  intro σ env db id body m hm
  rcases PatchUser_writes env db id body with hw | ⟨dto, _, hw⟩
  · rw [hw] at hm
    simp at hm
  · rw [hw] at hm
    have hmd : m = PatchUser.buildUpdates dto := by simpa using hm
    subst hmd
    exact hdto dto

theorem updates_exclude_email_witness :
    (PatchUser sampleEnv [sampleUser] "1"
      (ascii "\x7b\"email\": \"new@example.com\", \"active\": false\x7d")).writes
      = [[("active", GoAny.bool false)]] ∧
    "email" ∉ GoMap.keys [("active", GoAny.bool false)] :=
  ⟨by decide,
    (updates_exclude_email.2 (List User) sampleEnv [sampleUser] "1"
      (ascii "\x7b\"email\": \"new@example.com\", \"active\": false\x7d")
      [("active", GoAny.bool false)] (by decide)).1⟩

/-! ## The validators `opt` and `nonull` -/

/-- A field that is Unset or Null yields no failure, whatever the rule evaluator. -/
theorem checkOpt_unset_or_null {T : Type} [ToAny T] (Var : GoAny → String → Bool)
    (name : String) (o : Optional T) (param : String)
    (h : o.IsSet = false ∨ o.IsNull = true) :
    checkOpt Var name o.toOptionalAny param = [] := by
  obtain ⟨s, n, v⟩ := o
  cases s <;> cases n <;>
    simp_all [checkOpt, opt, Optional.toOptionalAny, Optional.IsSet, Optional.IsNull,
      Optional.Any]

/-- A DTO whose fields are all Unset or Null passes `Validate.Struct` and
`ValidateStruct`, whatever the rule evaluator. -/
theorem Struct_unset_or_null (Var : GoAny → String → Bool) (dto : PatchUserDTO)
    (h1 : dto.Name.IsSet = false ∨ dto.Name.IsNull = true)
    (h2 : dto.Age.IsSet = false ∨ dto.Age.IsNull = true)
    (h3 : dto.Phone.IsSet = false ∨ dto.Phone.IsNull = true)
    (h5 : dto.Bio.IsSet = false ∨ dto.Bio.IsNull = true)
    (h6 : dto.Role.IsSet = false ∨ dto.Role.IsNull = true)
    (h7 : dto.Score.IsSet = false ∨ dto.Score.IsNull = true) :
    PatchUserDTO.Struct Var dto = none ∧
    ValidateStruct (PatchUserDTO.Struct Var) dto = none := by
  have hs : PatchUserDTO.Struct Var dto = none := by
    simp [PatchUserDTO.Struct, checkOpt_unset_or_null Var _ _ _ h1,
      checkOpt_unset_or_null Var _ _ _ h2, checkOpt_unset_or_null Var _ _ _ h3,
      checkOpt_unset_or_null Var _ _ _ h5, checkOpt_unset_or_null Var _ _ _ h6,
      checkOpt_unset_or_null Var _ _ _ h7]
  exact ⟨hs, by simp [ValidateStruct, hs]⟩

/-- C11: for every Optional field in the Unset or Null state and every inner-rule
parameter, the `opt` validator reports the field valid whatever the evaluation of the
inner rules would give; consequently every `PatchUserDTO` whose fields are all Unset or
Null passes validation. -/
theorem opt_unset_or_null_valid (Var : GoAny → String → Bool) :
    (∀ (T : Type) [ToAny T] (o : Optional T) (param : String),
      (o.IsSet = false ∨ o.IsNull = true) →
      opt Var (FieldValue.value (some o.toOptionalAny)) param = true ∧
      opt Var (FieldValue.ptr (some o.toOptionalAny)) param = true) ∧
    (∀ dto : PatchUserDTO,
      (dto.Name.IsSet = false ∨ dto.Name.IsNull = true) →
      (dto.Age.IsSet = false ∨ dto.Age.IsNull = true) →
      (dto.Phone.IsSet = false ∨ dto.Phone.IsNull = true) →
      (dto.Active.IsSet = false ∨ dto.Active.IsNull = true) →
      (dto.Bio.IsSet = false ∨ dto.Bio.IsNull = true) →
      (dto.Role.IsSet = false ∨ dto.Role.IsNull = true) →
      (dto.Score.IsSet = false ∨ dto.Score.IsNull = true) →
      PatchUserDTO.Struct Var dto = none ∧
      ValidateStruct (PatchUserDTO.Struct Var) dto = none) := by
  constructor
  · intro T _ o param h
    obtain ⟨s, n, v⟩ := o
    cases s <;> cases n <;>
      simp_all [opt, Optional.toOptionalAny, Optional.IsSet, Optional.IsNull, Optional.Any]
  · intro dto h1 h2 h3 _ h5 h6 h7
    exact Struct_unset_or_null Var dto h1 h2 h3 h5 h6 h7

theorem opt_unset_or_null_valid_witness :
    (⟨true, true, ""⟩ : Optional String).IsNull = true ∧
    opt (fun _ _ => false) (FieldValue.value
      (some (⟨true, true, ""⟩ : Optional String).toOptionalAny)) "min=1000" = true :=
  ⟨by decide,
    ((opt_unset_or_null_valid (fun _ _ => false)).1 String (⟨true, true, ""⟩ : Optional String)
      "min=1000" (Or.inr (by decide))).1⟩

/-- A split has at least one piece. -/
theorem splitChars_ne_nil (sep : Char) (l : List Char) : splitChars sep l ≠ [] := by
  cases l with
  | nil => simp [splitChars]
  | cons c rest =>
    simp only [splitChars]
    split
    · simp
    · split <;> simp

/-- Splitting at `new` after every `old` was replaced by `new` gives the pieces of the
split at `old`, when `new` did not occur before. -/
theorem splitChars_map_replace (old new : Char) (l : List Char) (h : new ∉ l) :
    splitChars new (l.map (fun c => if c = old then new else c)) = splitChars old l := by
  induction l with
  | nil => simp [splitChars]
  | cons c rest ih =>
    have hc : c ≠ new := fun e => h (by simp [e])
    have hrest : new ∉ rest := fun e => h (List.mem_cons_of_mem c e)
    simp only [List.map_cons, splitChars, ih hrest]
    cases hsp : splitChars old rest with
    | nil => exact absurd hsp (splitChars_ne_nil old rest)
    | cons piece pieces =>
      by_cases hco : c = old
      · simp [hco]
      · simp [hco, hc]

/-- C12: for every Optional field in the Value(v) state, the `opt` validator reports the
field valid if and only if the parameter is empty or `v` passes the rules of the
parameter, read as a semicolon-separated list: the rule string evaluated on `v` alone is
the parameter with each semicolon turned into a comma and every other character kept
(so `min=2;max=100` is evaluated as `min=2,max=100`), and for an evaluator that is a
conjunction over the comma-separated rules the field is valid exactly when `v` passes
every semicolon-separated rule of the parameter. -/
theorem opt_value_valid_iff {T : Type} [ToAny T] (Var : GoAny → String → Bool)
    (o : Optional T) (v : T) (param : String) (h : o.Value = (v, true)) :
    (opt Var (FieldValue.value (some o.toOptionalAny)) param = true ↔
      param = "" ∨
      Var (ToAny.toAny v) (String.mk (param.data.map
        (fun c => if c = Char.ofNat 0x3b then Char.ofNat 0x2c else c))) = true) ∧
    (opt Var (FieldValue.ptr (some o.toOptionalAny)) param = true ↔
      param = "" ∨
      Var (ToAny.toAny v) (String.mk (param.data.map
        (fun c => if c = Char.ofNat 0x3b then Char.ofNat 0x2c else c))) = true) ∧
    opt Var (FieldValue.value (some o.toOptionalAny)) "min=2;max=100"
      = Var (ToAny.toAny v) "min=2,max=100" ∧
    (∀ rule : List Char → GoAny → Bool,
      (∀ (x : GoAny) (rules : String),
        Var x rules = (splitChars (Char.ofNat 0x2c) rules.data).all (fun r => rule r x)) →
      Char.ofNat 0x2c ∉ param.data →
      (opt Var (FieldValue.value (some o.toOptionalAny)) param = true ↔
        param = "" ∨
        ∀ r, r ∈ splitChars (Char.ofNat 0x3b) param.data → rule r (ToAny.toAny v) = true)) := by
  obtain ⟨s, n, x⟩ := o
  have hv : x = v ∧ s = true ∧ n = false := by simpa [Optional.Value] using h
  obtain ⟨hx, hs, hn⟩ := hv
  subst hx
  subst hs
  subst hn
  have hopt : ∀ p : String, opt Var (FieldValue.value
      (some (⟨true, false, x⟩ : Optional T).toOptionalAny)) p =
      if p = "" then true
      else Var (ToAny.toAny x) (String.mk (p.data.map
        (fun c => if c = Char.ofNat 0x3b then Char.ofNat 0x2c else c))) := by
    intro p
    simp [opt, Optional.toOptionalAny, Optional.IsSet, Optional.IsNull, Optional.Any,
      stringsReplaceAll]
  refine ⟨?_, ?_, ?_, ?_⟩
  · rw [hopt]
    by_cases hp : param = "" <;> simp [hp]
  · by_cases hp : param = "" <;>
      simp [opt, Optional.toOptionalAny, Optional.IsSet, Optional.IsNull, Optional.Any,
        stringsReplaceAll, hp]
  · rw [hopt]
    have hne : ¬ ("min=2;max=100" = "") := by decide
    have hrep : String.mk ("min=2;max=100".data.map
        (fun c => if c = Char.ofNat 0x3b then Char.ofNat 0x2c else c)) = "min=2,max=100" := by
      decide
    rw [if_neg hne, hrep]
  · intro rule hVar hcomma
    rw [hopt]
    by_cases hp : param = ""
    · simp [hp]
    · rw [if_neg hp, hVar]
      simp only [splitChars_map_replace (Char.ofNat 0x3b) (Char.ofNat 0x2c) param.data hcomma,
        List.all_eq_true, hp, false_or]

/-- The sample evaluator is a conjunction over the comma-separated rules. -/
theorem sampleVar_conjunction (x : GoAny) (rules : String) :
    sampleVar x rules = (splitChars (Char.ofNat 0x2c) rules.data).all
      (fun r => sampleRule (parseRule r).1 (parseRule r).2 x) := by
  have hl : ∀ l : List (List Char),
      (l.map parseRule).all (fun r => sampleRule r.1 r.2 x) =
        l.all (fun r => sampleRule (parseRule r).1 (parseRule r).2 x) := by
    intro l
    induction l with
    | nil => rfl
    | cons a t ih => simp only [List.map_cons, List.all_cons, ih]
  exact hl _

theorem opt_value_valid_iff_witness :
    (⟨true, false, "AB"⟩ : Optional String).Value = ("AB", true) ∧
    sampleVar (GoAny.str "AB") "min=2;max=100" = false ∧
    sampleVar (GoAny.str "AB") "min=2,max=100" = true ∧
    opt sampleVar (FieldValue.value
      (some (⟨true, false, "AB"⟩ : Optional String).toOptionalAny)) "min=2;max=100" = true ∧
    (⟨true, false, "A"⟩ : Optional String).Value = ("A", true) ∧
    opt sampleVar (FieldValue.value
      (some (⟨true, false, "A"⟩ : Optional String).toOptionalAny)) "min=2;max=100" = false ∧
    Char.ofNat 0x2c ∉ "min=2;max=100".data ∧
    (opt sampleVar (FieldValue.value
      (some (⟨true, false, "AB"⟩ : Optional String).toOptionalAny)) "min=2;max=100" = true ↔
      "min=2;max=100" = "" ∨
      ∀ r, r ∈ splitChars (Char.ofNat 0x3b) "min=2;max=100".data →
        sampleRule (parseRule r).1 (parseRule r).2 (GoAny.str "AB") = true) :=
  ⟨by decide, by decide, by decide,
    (opt_value_valid_iff sampleVar (⟨true, false, "AB"⟩ : Optional String) "AB"
      "min=2;max=100" (by decide)).1.2 (Or.inr (by decide)),
    by decide,
    ((opt_value_valid_iff sampleVar (⟨true, false, "A"⟩ : Optional String) "A"
      "min=2;max=100" (by decide)).2.2.1).trans (by decide),
    by decide,
    (opt_value_valid_iff sampleVar (⟨true, false, "AB"⟩ : Optional String) "AB"
      "min=2;max=100" (by decide)).2.2.2
      (fun r x => sampleRule (parseRule r).1 (parseRule r).2 x) sampleVar_conjunction
      (by decide)⟩

/-- C13 fails as stated: a phone of 3 characters violates `min` first and one of 22
characters violates `max` first, yet both are reported by the same entry, whose tag is
`opt` and not the name of the violated rule. -/
theorem opt_entry_not_violated_rule :
    sampleFirstFailing (GoAny.str "123") "min=10,max=20" = some "min" ∧
    sampleFirstFailing (GoAny.str "1234567890123456789012") "min=10,max=20" = some "max" ∧
    ValidateStruct (PatchUserDTO.Struct sampleVar)
      { (GoZero.zero : PatchUserDTO) with Phone := ⟨true, false, "123"⟩ }
      = some ⟨400, Body.validation
          [⟨"Phone", "opt", "Phone failed validation: min=10;max=20"⟩]⟩ ∧
    ValidateStruct (PatchUserDTO.Struct sampleVar)
      { (GoZero.zero : PatchUserDTO) with Phone := ⟨true, false, "1234567890123456789012"⟩ }
      = some ⟨400, Body.validation
          [⟨"Phone", "opt", "Phone failed validation: min=10;max=20"⟩]⟩ ∧
    (⟨"Phone", "opt", "Phone failed validation: min=10;max=20"⟩ : ErrorEntry).tag ≠ "min" ∧
    (⟨"Phone", "opt", "Phone failed validation: min=10;max=20"⟩ : ErrorEntry).tag ≠ "max" := by
  refine ⟨by decide, by decide, by decide, by decide, by decide, by decide⟩

/-- The response of the validation of a DTO, by the fields the `opt` validator rejects. -/
theorem ValidateStruct_Struct_eq (Var : GoAny → String → Bool) (dto : PatchUserDTO) :
    ValidateStruct (PatchUserDTO.Struct Var) dto =
      (match
        (if opt Var (FieldValue.value (some dto.Name.toOptionalAny)) "min=2;max=100" then []
          else [(⟨"Name", "opt", "Name failed validation: min=2;max=100"⟩ : ErrorEntry)]) ++
        (if opt Var (FieldValue.value (some dto.Age.toOptionalAny)) "gte=0;lte=150" then []
          else [⟨"Age", "opt", "Age failed validation: gte=0;lte=150"⟩]) ++
        (if opt Var (FieldValue.value (some dto.Phone.toOptionalAny)) "min=10;max=20" then []
          else [⟨"Phone", "opt", "Phone failed validation: min=10;max=20"⟩]) ++
        (if opt Var (FieldValue.value (some dto.Bio.toOptionalAny)) "max=500" then []
          else [⟨"Bio", "opt", "Bio failed validation: max=500"⟩]) ++
        (if opt Var (FieldValue.value (some dto.Role.toOptionalAny)) "oneof=admin user guest"
          then [] else [⟨"Role", "opt", "Role failed validation: oneof=admin user guest"⟩]) ++
        (if opt Var (FieldValue.value (some dto.Score.toOptionalAny)) "gte=0;lte=100" then []
          else [⟨"Score", "opt", "Score failed validation: gte=0;lte=100"⟩]) with
      | [] => none
      | e :: rest => some ⟨400, Body.validation (e :: rest)⟩) := by
  simp only [ValidateStruct, PatchUserDTO.Struct, checkOpt]
  generalize opt Var (FieldValue.value (some dto.Name.toOptionalAny)) "min=2;max=100" = b1
  generalize opt Var (FieldValue.value (some dto.Age.toOptionalAny)) "gte=0;lte=150" = b2
  generalize opt Var (FieldValue.value (some dto.Phone.toOptionalAny)) "min=10;max=20" = b3
  generalize opt Var (FieldValue.value (some dto.Bio.toOptionalAny)) "max=500" = b4
  generalize opt Var (FieldValue.value (some dto.Role.toOptionalAny))
    "oneof=admin user guest" = b5
  generalize opt Var (FieldValue.value (some dto.Score.toOptionalAny)) "gte=0;lte=100" = b6
  cases b1 <;> cases b2 <;> cases b3 <;> cases b4 <;> cases b5 <;> cases b6 <;> rfl

/-- C13, amended: the response of the validation of a `PatchUserDTO` is fixed by which
fields the `opt` validator rejects, not by which inner predicate failed: each rejected
field is reported, in declaration order, by one entry that carries the name of the
struct field, the tag `opt` and the message made of the field name and the whole
declared parameter; the status is 400, and nothing is written when no field is
rejected. -/
theorem ValidateStruct_entries (Var : GoAny → String → Bool) (dto : PatchUserDTO) :
    ValidateStruct (PatchUserDTO.Struct Var) dto =
      (match
        (if opt Var (FieldValue.value (some dto.Name.toOptionalAny)) "min=2;max=100" then []
          else [(⟨"Name", "opt", "Name failed validation: min=2;max=100"⟩ : ErrorEntry)]) ++
        (if opt Var (FieldValue.value (some dto.Age.toOptionalAny)) "gte=0;lte=150" then []
          else [⟨"Age", "opt", "Age failed validation: gte=0;lte=150"⟩]) ++
        (if opt Var (FieldValue.value (some dto.Phone.toOptionalAny)) "min=10;max=20" then []
          else [⟨"Phone", "opt", "Phone failed validation: min=10;max=20"⟩]) ++
        (if opt Var (FieldValue.value (some dto.Bio.toOptionalAny)) "max=500" then []
          else [⟨"Bio", "opt", "Bio failed validation: max=500"⟩]) ++
        (if opt Var (FieldValue.value (some dto.Role.toOptionalAny)) "oneof=admin user guest"
          then [] else [⟨"Role", "opt", "Role failed validation: oneof=admin user guest"⟩]) ++
        (if opt Var (FieldValue.value (some dto.Score.toOptionalAny)) "gte=0;lte=100" then []
          else [⟨"Score", "opt", "Score failed validation: gte=0;lte=100"⟩]) with
      | [] => none
      | e :: rest => some ⟨400, Body.validation (e :: rest)⟩) :=
  ValidateStruct_Struct_eq Var dto

/-- A body of one member decodes to what the member makes of the zero DTO. -/
theorem Decode_single {E : Type} (d : JSONDecoder E) (body : Bytes) (kv : String × Bytes)
    (dto : PatchUserDTO) (hm : d.members body = Except.ok [kv])
    (hk : PatchUserDTO.decodeMember d GoZero.zero kv = (none, dto)) :
    PatchUserDTO.Decode d body = Except.ok dto := by
  simp [PatchUserDTO.Decode, hm, PatchUserDTO.decodeMembers, hk]

/-- A successful `UnmarshalJSON` with a decoder that yields Go ints leaves a Go int. -/
theorem UnmarshalJSON_isGoInt {E : Type} (lib : JSONLib Int E)
    (hint : ∀ (raw : Bytes) (c v : Int), lib.Unmarshal raw c = (none, v) → isGoInt v = true)
    (o : Optional Int) (b : Bytes) (h : (o.UnmarshalJSON lib b).1 = none) :
    isGoInt (o.UnmarshalJSON lib b).2.value = true := by
  by_cases hb : lib.TrimSpace b = nullLiteral
  · simp only [Optional.UnmarshalJSON, hb, if_true]
    decide
  · have h1 : (lib.Unmarshal b o.value).1 = none := by
      simpa [Optional.UnmarshalJSON, hb] using h
    have h2 := hint b o.value (lib.Unmarshal b o.value).2 (Prod.ext h1 rfl)
    simpa [Optional.UnmarshalJSON, hb] using h2

/-- A member decoded successfully keeps the age of the DTO a Go int. -/
theorem decodeMember_isGoInt {E : Type} (d : JSONDecoder E)
    (hint : ∀ (raw : Bytes) (c v : Int), d.UnmarshalInt raw c = (none, v) → isGoInt v = true)
    (dto dto1 : PatchUserDTO) (kv : String × Bytes)
    (h : PatchUserDTO.decodeMember d dto kv = (none, dto1))
    (hr : isGoInt dto.Age.value = true) : isGoInt dto1.Age.value = true := by
  unfold PatchUserDTO.decodeMember at h
  cases hk : d.field kv.1 with
  | none =>
    rw [hk] at h
    obtain ⟨_, rfl⟩ := Prod.mk.inj h
    exact hr
  | some f =>
    rw [hk] at h
    cases f
    case Age =>
      obtain ⟨he, rfl⟩ := Prod.mk.inj h
      exact UnmarshalJSON_isGoInt d.intLib hint dto.Age kv.2 he
    all_goals
      obtain ⟨_, rfl⟩ := Prod.mk.inj h
      exact hr

/-- A request that decodes carries an age that is a Go int. -/
theorem decodeMembers_isGoInt {E : Type} (d : JSONDecoder E)
    (hint : ∀ (raw : Bytes) (c v : Int), d.UnmarshalInt raw c = (none, v) → isGoInt v = true)
    (ms : List (String × Bytes)) (dto dto1 : PatchUserDTO)
    (h : PatchUserDTO.decodeMembers d dto ms = (none, dto1))
    (hr : isGoInt dto.Age.value = true) : isGoInt dto1.Age.value = true := by
  induction ms generalizing dto with
  | nil =>
    obtain ⟨_, rfl⟩ := Prod.mk.inj h
    exact hr
  | cons kv rest ih =>
    rcases hm : PatchUserDTO.decodeMember d dto kv with ⟨err, dto2⟩
    cases err with
    | some e => simp [PatchUserDTO.decodeMembers, hm] at h
    | none =>
      simp only [PatchUserDTO.decodeMembers, hm] at h
      exact ih dto2 h (decodeMember_isGoInt d hint dto dto2 kv hm hr)

/-- The sample int decoder yields Go ints. -/
theorem unmarshalInt_isGoInt (raw : Bytes) (c v : Int) (h : unmarshalInt raw c = (none, v)) :
    isGoInt v = true := by
  unfold unmarshalInt at h
  dsimp only at h
  split at h
  · simp at h
  · split at h
    · split_ifs at h with hle
      · obtain ⟨_, rfl⟩ := Prod.mk.inj h
        simp only [isGoInt, decide_eq_true_eq]
        constructor <;> omega
      · simp at h
    · simp at h
  · split at h
    · split_ifs at h with hlt
      · obtain ⟨_, rfl⟩ := Prod.mk.inj h
        simp only [isGoInt, decide_eq_true_eq]
        constructor <;> omega
      · simp at h
    · simp at h

/-- The sample rules `gte=0,lte=150` hold of exactly the ints from 0 to 150. -/
theorem sampleVar_age (n : Int) :
    sampleVar (GoAny.int n) "gte=0,lte=150" = decide (0 ≤ n ∧ n ≤ 150) := by
  have hp : parseRules "gte=0,lte=150" = [("gte", "0"), ("lte", "150")] := by decide
  have h0 : digitsValue (ascii "0") 0 = some 0 := by decide
  have h150 : digitsValue (ascii "150") 0 = some 150 := by decide
  have hl : ¬ ("lte" = "gte") := by decide
  simp [sampleVar, hp, sampleRule, h0, h150, hl]

/-- C15 fails as stated: the integer `2 ^ 63` is no Go int; the body that carries it as
the age is rejected with 400 by the decoding, with the plain text of the decode error,
and not as a validation failure on the age. -/
theorem age_beyond_int_is_decode_error :
    isGoInt 9223372036854775808 = false ∧
    ¬ ((0 : Int) ≤ 9223372036854775808 ∧ (9223372036854775808 : Int) ≤ 150) ∧
    (PatchUser sampleValidatingEnv [sampleUser] "1"
      (ascii "\x7b\"age\": 9223372036854775808\x7d")).resp
      = ⟨400, Body.text "cannot unmarshal into Go value of type int"⟩ ∧
    (PatchUser sampleValidatingEnv [sampleUser] "1"
      (ascii "\x7b\"age\": 9223372036854775808\x7d")).resp
      ≠ ⟨400, Body.validation [⟨"Age", "opt", "Age failed validation: gte=0;lte=150"⟩]⟩ := by
  refine ⟨by decide, by decide, by decide, by decide⟩

/-- C15, amended: provided the library rules `gte=0,lte=150` hold of exactly the ints
from 0 to 150, for every integer `n` that is a Go int a PATCH on an existing user whose
body carries only the age `n` passes the validation of `PatchUserDTO` if and only if
`0 <= n <= 150`; in that case it is answered with 200 when the store accepts the write,
and otherwise it is rejected with 400 as a validation failure on the field `Age`,
without a write. A body whose age does not decode as an int is rejected with 400 and the
text of the decode error, before validation and without a write, and with a decoder that
yields Go ints no decoded request carries an age outside the Go ints. -/
theorem age_valid_iff_in_range (Var : GoAny → String → Bool)
    (hVar : ∀ n : Int, Var (GoAny.int n) "gte=0,lte=150" = decide (0 ≤ n ∧ n ≤ 150))
    (n : Int) (hn : isGoInt n = true) :
    (ValidateStruct (PatchUserDTO.Struct Var)
        { (GoZero.zero : PatchUserDTO) with Age := ⟨true, false, n⟩ } = none ↔
      0 ≤ n ∧ n ≤ 150) ∧
    (∀ (E : Type) (d : JSONDecoder E) (body : Bytes) (k : String) (raw : Bytes),
      d.members body = Except.ok [(k, raw)] → d.field k = some DTOField.Age →
      d.TrimSpace raw ≠ nullLiteral →
      (d.UnmarshalInt raw 0 = (none, n) →
        PatchUserDTO.Decode d body =
          Except.ok { (GoZero.zero : PatchUserDTO) with Age := ⟨true, false, n⟩ }) ∧
      (∀ (e : E) (v : Int), d.UnmarshalInt raw 0 = (some e, v) →
        PatchUserDTO.Decode d body = Except.error e)) ∧
    (∀ (E : Type) (d : JSONDecoder E),
      (∀ (raw : Bytes) (c v : Int), d.UnmarshalInt raw c = (none, v) → isGoInt v = true) →
      ∀ (body : Bytes) (dto : PatchUserDTO),
        PatchUserDTO.Decode d body = Except.ok dto → isGoInt dto.Age.value = true) ∧
    (∀ (σ : Type) (env : Env σ) (db : σ) (id : String) (body : Bytes) (m : Nat) (user : User),
      env.Struct = PatchUserDTO.Struct Var →
      env.ParseUint id = some m → env.First db GoZero.zero m = (none, user) →
      (env.Decode body =
          Except.ok { (GoZero.zero : PatchUserDTO) with Age := ⟨true, false, n⟩ } →
        ((0 ≤ n ∧ n ≤ 150) → (env.Updates db user [("age", GoAny.int n)]).1 = none →
          (PatchUser env db id body).resp.status = 200 ∧
          (PatchUser env db id body).writes = [[("age", GoAny.int n)]]) ∧
        (¬ (0 ≤ n ∧ n ≤ 150) →
          (PatchUser env db id body).resp = ⟨400, Body.validation
            [⟨"Age", "opt", "Age failed validation: gte=0;lte=150"⟩]⟩ ∧
          (PatchUser env db id body).db = db ∧
          (PatchUser env db id body).writes = [])) ∧
      (∀ msg : String, env.Decode body = Except.error msg →
        (PatchUser env db id body).resp = ⟨400, Body.text msg⟩ ∧
        (PatchUser env db id body).db = db ∧
        (PatchUser env db id body).writes = [])) := by
  have _ := hn
  have hrep : stringsReplaceAll "gte=0;lte=150" (Char.ofNat 0x3b) (Char.ofNat 0x2c)
      = "gte=0,lte=150" := by decide
  have hz : (GoZero.zero : PatchUserDTO) =
      ⟨⟨false, false, ""⟩, ⟨false, false, 0⟩, ⟨false, false, ""⟩, ⟨false, false, false⟩,
        ⟨false, false, ""⟩, ⟨false, false, ""⟩, ⟨false, false, ⟨0⟩⟩⟩ := rfl
  have hopt : opt Var (FieldValue.value
      (some (⟨true, false, n⟩ : Optional Int).toOptionalAny)) "gte=0;lte=150"
      = decide (0 ≤ n ∧ n ≤ 150) := by
    have hne : ¬ ("gte=0;lte=150" = "") := by decide
    simp only [opt, Optional.toOptionalAny, Optional.IsSet, Optional.IsNull, Optional.Any,
      hne, hrep, hVar]
    simp [ToAny.toAny, hVar]
  have hval : ValidateStruct (PatchUserDTO.Struct Var)
      { (GoZero.zero : PatchUserDTO) with Age := ⟨true, false, n⟩ } =
      if 0 ≤ n ∧ n ≤ 150 then none
      else some ⟨400, Body.validation
        [⟨"Age", "opt", "Age failed validation: gte=0;lte=150"⟩]⟩ := by
    rw [ValidateStruct_Struct_eq, hz]
    simp only [hopt]
    by_cases hr : 0 ≤ n ∧ n ≤ 150
    · simp [hr, opt, Optional.toOptionalAny, Optional.IsSet, Optional.IsNull, Optional.Any]
    · simp [hr, opt, Optional.toOptionalAny, Optional.IsSet, Optional.IsNull, Optional.Any]
  refine ⟨?_, ?_, ?_, ?_⟩
  · rw [hval]
    by_cases hr : 0 ≤ n ∧ n ≤ 150 <;> simp [hr]
  · intro E d body k raw hm hk hnn
    constructor
    · intro hu
      apply Decode_single d body (k, raw) _ hm
      simp [PatchUserDTO.decodeMember, hk, Optional.UnmarshalJSON, JSONDecoder.intLib, hnn, hz,
        hu, GoZero.zero]
    · intro e v hu
      simp [PatchUserDTO.Decode, hm, PatchUserDTO.decodeMembers, PatchUserDTO.decodeMember, hk,
        Optional.UnmarshalJSON, JSONDecoder.intLib, hnn, hu, GoZero.zero]
  · intro E d hint body dto hd
    unfold PatchUserDTO.Decode at hd
    cases hm : d.members body with
    | error e => simp [hm] at hd
    | ok ms =>
      rcases hdm : PatchUserDTO.decodeMembers d GoZero.zero ms with ⟨err, dto1⟩
      cases err with
      | some e => simp [hm, hdm] at hd
      | none =>
        simp only [hm, hdm] at hd
        have hdto : dto1 = dto := by
          injection hd
        subst hdto
        exact decodeMembers_isGoInt d hint ms GoZero.zero dto1 hdm (by decide)
  · intro σ env db id body m user hs hp hf
    constructor
    · intro hd
      have hb : PatchUser.buildUpdates
          { (GoZero.zero : PatchUserDTO) with Age := ⟨true, false, n⟩ }
          = [("age", GoAny.int n)] := by
        rw [hz]
        rfl
      constructor
      · intro hr hu
        rcases hw : env.Updates db user [("age", GoAny.int n)] with ⟨err, user1, db1⟩
        rw [hw] at hu
        have herr : err = none := hu
        subst herr
        simp [PatchUser, hp, hf, hd, hs, hval, hr, hb, GoMap.len, hw]
      · intro hr
        simp [PatchUser, hp, hf, hd, hs, hval, hr]
    · intro msg hd
      simp [PatchUser, hp, hf, hd]

theorem age_valid_iff_in_range_witness :
    isGoInt 150 = true ∧ isGoInt 151 = true ∧
    sampleValidatingEnv.Decode (ascii "\x7b\"age\": 150\x7d") =
      Except.ok { (GoZero.zero : PatchUserDTO) with Age := ⟨true, false, 150⟩ } ∧
    (PatchUser sampleValidatingEnv [sampleUser] "1" (ascii "\x7b\"age\": 150\x7d")).resp.status
      = 200 ∧
    (PatchUser sampleValidatingEnv [sampleUser] "1" (ascii "\x7b\"age\": 151\x7d")).resp
      = ⟨400, Body.validation [⟨"Age", "opt", "Age failed validation: gte=0;lte=150"⟩]⟩ ∧
    PatchUserDTO.Decode sampleDecoder (ascii "\x7b\"age\": 9223372036854775808\x7d")
      = Except.error "cannot unmarshal into Go value of type int" ∧
    isGoInt (GoZero.zero : PatchUserDTO).Age.value = true :=
  ⟨by decide, by decide, by rfl,
    ((((age_valid_iff_in_range sampleVar sampleVar_age 150 (by decide)).2.2.2 (List User)
      sampleValidatingEnv [sampleUser] "1" (ascii "\x7b\"age\": 150\x7d") 1 sampleUser rfl
      (by decide) (by decide)).1 (by rfl)).1 (by decide) (by decide)).1,
    ((((age_valid_iff_in_range sampleVar sampleVar_age 151 (by decide)).2.2.2 (List User)
      sampleValidatingEnv [sampleUser] "1" (ascii "\x7b\"age\": 151\x7d") 1 sampleUser rfl
      (by decide) (by decide)).1 (by rfl)).2 (by decide)).1,
    ((age_valid_iff_in_range sampleVar sampleVar_age 150 (by decide)).2.1 String sampleDecoder
      (ascii "\x7b\"age\": 9223372036854775808\x7d") "age" (ascii "9223372036854775808")
      (by rfl) (by decide) (by decide)).2 "cannot unmarshal into Go value of type int" 0
      (by decide),
    (age_valid_iff_in_range sampleVar sampleVar_age 150 (by decide)).2.2.1 String sampleDecoder
      unmarshalInt_isGoInt (ascii "\x7b\x7d") GoZero.zero (by rfl)⟩

/-- C16 fails as stated: for the body with the single member `"role": null` the update
mapping binds the column `role` to the nil interface, not to the empty string. -/
theorem role_null_maps_to_nil_not_empty :
    PatchUserDTO.Decode sampleDecoder (ascii "\x7b\"role\": null\x7d") =
      Except.ok { (GoZero.zero : PatchUserDTO) with Role := ⟨true, true, ""⟩ } ∧
    (PatchUser sampleValidatingEnv [sampleUser] "1" (ascii "\x7b\"role\": null\x7d")).writes
      = [[("role", GoAny.nil)]] ∧
    GoMap.get (PatchUser.buildUpdates
      { (GoZero.zero : PatchUserDTO) with Role := ⟨true, true, ""⟩ }) "role" = some GoAny.nil ∧
    GoMap.get (PatchUser.buildUpdates
      { (GoZero.zero : PatchUserDTO) with Role := ⟨true, true, ""⟩ }) "role"
      ≠ some (GoAny.str "") := by
  refine ⟨by rfl, by decide, by decide, by decide⟩

/-- C16, amended: for the patch body with the single member `"role": null`, where role
declares the inner rule `oneof=admin user guest`, the decoded field is Null with the
empty string stored, validation passes whatever the rule evaluation would give, and the
update mapping binds the column `role`, and no other, to the nil interface. -/
theorem role_null_passes_and_maps_to_nil (Var : GoAny → String → Bool) :
    (∀ (E : Type) (d : JSONDecoder E) (body : Bytes) (k : String) (raw : Bytes),
      d.members body = Except.ok [(k, raw)] → d.field k = some DTOField.Role →
      d.TrimSpace raw = nullLiteral →
      PatchUserDTO.Decode d body =
        Except.ok { (GoZero.zero : PatchUserDTO) with Role := ⟨true, true, ""⟩ }) ∧
    ValidateStruct (PatchUserDTO.Struct Var)
      { (GoZero.zero : PatchUserDTO) with Role := ⟨true, true, ""⟩ } = none ∧
    PatchUser.buildUpdates { (GoZero.zero : PatchUserDTO) with Role := ⟨true, true, ""⟩ }
      = [("role", GoAny.nil)] ∧
    (∀ (σ : Type) (env : Env σ) (db : σ) (id : String) (body : Bytes) (m : Nat) (user : User),
      env.Struct = PatchUserDTO.Struct Var →
      env.ParseUint id = some m → env.First db GoZero.zero m = (none, user) →
      env.Decode body =
        Except.ok { (GoZero.zero : PatchUserDTO) with Role := ⟨true, true, ""⟩ } →
      (PatchUser env db id body).writes = [[("role", GoAny.nil)]]) := by
  have hz : (GoZero.zero : PatchUserDTO) =
      ⟨⟨false, false, ""⟩, ⟨false, false, 0⟩, ⟨false, false, ""⟩, ⟨false, false, false⟩,
        ⟨false, false, ""⟩, ⟨false, false, ""⟩, ⟨false, false, ⟨0⟩⟩⟩ := rfl
  have hval : ValidateStruct (PatchUserDTO.Struct Var)
      { (GoZero.zero : PatchUserDTO) with Role := ⟨true, true, ""⟩ } = none :=
    (Struct_unset_or_null Var { (GoZero.zero : PatchUserDTO) with Role := ⟨true, true, ""⟩ }
      (Or.inl rfl) (Or.inl rfl) (Or.inl rfl) (Or.inl rfl) (Or.inr rfl) (Or.inl rfl)).2
  have hb : PatchUser.buildUpdates
      { (GoZero.zero : PatchUserDTO) with Role := ⟨true, true, ""⟩ } = [("role", GoAny.nil)] := by
    rw [hz]
    rfl
  refine ⟨?_, hval, hb, ?_⟩
  · intro E d body k raw hm hk hn
    apply Decode_single d body (k, raw) _ hm
    simp [PatchUserDTO.decodeMember, hk, Optional.UnmarshalJSON, JSONDecoder.stringLib, hn, hz,
      GoZero.zero]
  · intro σ env db id body m user hs hp hf hd
    rcases hw : env.Updates db user [("role", GoAny.nil)] with ⟨err, user1, db1⟩
    cases err <;> simp [PatchUser, hp, hf, hd, hs, hval, hb, GoMap.len, hw]

theorem role_null_passes_and_maps_to_nil_witness :
    sampleDecoder.members (ascii "\x7b\"role\": null\x7d")
      = Except.ok [("role", ascii "null")] ∧
    PatchUserDTO.Decode sampleDecoder (ascii "\x7b\"role\": null\x7d") =
      Except.ok { (GoZero.zero : PatchUserDTO) with Role := ⟨true, true, ""⟩ } :=
  ⟨by rfl,
    (role_null_passes_and_maps_to_nil sampleVar).1 String sampleDecoder
      (ascii "\x7b\"role\": null\x7d") "role" (ascii "null") (by rfl) (by decide) (by decide)⟩

/-! ## The error paths of `PatchUser` -/

/-- C17: for every PATCH request whose identifier parses but matches no stored record,
`PatchUser` responds 404 whatever the body is: the outcome is the same for every body
and for every behaviour of the decoder, the validator and the store write, the store is
left as it was and no write is issued. -/
theorem PatchUser_not_found {σ : Type} (env : Env σ) (db : σ) (id : String) (body : Bytes)
    (n : Nat) (user : User) (hp : env.ParseUint id = some n)
    (hf : env.First db GoZero.zero n = (some DBError.recordNotFound, user)) :
    (PatchUser env db id body).resp = ⟨404, Body.text "User not found"⟩ ∧
    (PatchUser env db id body).db = db ∧
    (PatchUser env db id body).writes = [] ∧
    (∀ (decode : Bytes → Except String PatchUserDTO)
      (validate : PatchUserDTO → Option (List FieldError))
      (updates : σ → User → GoMap → Option DBError × User × σ) (body2 : Bytes),
      PatchUser { env with Decode := decode, Struct := validate, Updates := updates } db id body2
        = PatchUser env db id body) := by
  refine ⟨?_, ?_, ?_, ?_⟩
  · simp [PatchUser, hp, hf]
  · simp [PatchUser, hp, hf]
  · simp [PatchUser, hp, hf]
  · intro decode validate updates body2
    simp [PatchUser, hp, hf]

theorem PatchUser_not_found_witness :
    sampleValidatingEnv.ParseUint "2" = some 2 ∧
    sampleValidatingEnv.First [sampleUser] GoZero.zero 2
      = (some DBError.recordNotFound, GoZero.zero) ∧
    (PatchUser sampleValidatingEnv [sampleUser] "2" (ascii "not json")).resp
      = ⟨404, Body.text "User not found"⟩ :=
  ⟨by decide, by decide,
    (PatchUser_not_found sampleValidatingEnv [sampleUser] "2" (ascii "not json") 2 GoZero.zero
      (by decide) (by decide)).1⟩

/-- C18: whenever `PatchUser` responds 400 the store is left as it was and no storage
write was issued; a write is issued only after the identifier parsed, the record was
found, the body decoded, the validation passed and the mapping came out non-empty, and
it is the write of that mapping; without a write the store is unchanged. -/
theorem PatchUser_400_no_write {σ : Type} (env : Env σ) (db : σ) (id : String) (body : Bytes) :
    ((PatchUser env db id body).resp.status = 400 →
      (PatchUser env db id body).db = db ∧ (PatchUser env db id body).writes = []) ∧
    ((PatchUser env db id body).writes ≠ [] →
      ∃ (n : Nat) (user : User) (dto : PatchUserDTO),
        env.ParseUint id = some n ∧ env.First db GoZero.zero n = (none, user) ∧
        env.Decode body = Except.ok dto ∧ ValidateStruct env.Struct dto = none ∧
        (PatchUser.buildUpdates dto).len ≠ 0 ∧
        (PatchUser env db id body).writes = [PatchUser.buildUpdates dto]) ∧
    ((PatchUser env db id body).writes = [] → (PatchUser env db id body).db = db) := by
  unfold PatchUser
  split
  · simp
  · rename_i n hn
    split
    · simp
    · simp
    · rename_i user hfirst
      split
      · simp
      · rename_i dto hdto
        split
        · simp
        · rename_i hval
          dsimp only
          split
          · simp
          · rename_i hlen
            split
            · exact ⟨by simp, fun _ => ⟨n, user, dto, hn, hfirst, hdto, hval, hlen, rfl⟩,
                by simp⟩
            · exact ⟨by simp, fun _ => ⟨n, user, dto, hn, hfirst, hdto, hval, hlen, rfl⟩,
                by simp⟩

theorem PatchUser_400_no_write_witness :
    (PatchUser sampleValidatingEnv [sampleUser] "1" (ascii "\x7b\"age\": -1\x7d")).resp.status
      = 400 ∧
    (PatchUser sampleValidatingEnv [sampleUser] "1" (ascii "\x7b\"age\": -1\x7d")).db
      = [sampleUser] ∧
    (PatchUser sampleValidatingEnv [sampleUser] "1" (ascii "\x7b\"age\": -1\x7d")).writes = [] :=
  ⟨by decide,
    ((PatchUser_400_no_write sampleValidatingEnv [sampleUser] "1"
      (ascii "\x7b\"age\": -1\x7d")).1 (by decide)).1,
    ((PatchUser_400_no_write sampleValidatingEnv [sampleUser] "1"
      (ascii "\x7b\"age\": -1\x7d")).1 (by decide)).2⟩

/-! ## Overwriting and failed decodes -/

/-- C20: a failed decode is not rolled back: `UnmarshalJSON` on a fresh Optional with a
non-null input that fails to decode returns the error and leaves `IsSet() = true` and
`IsNull() = false`, so `Value()` and `Any()` report a value as present and `SetUpdate`
with that Optional writes the column. -/
theorem UnmarshalJSON_failure_leaves_value {T E : Type} [GoZero T] [ToAny T]
    (lib : JSONLib T E) (b : Bytes) (e : E) (v : T)
    (hn : lib.TrimSpace b ≠ nullLiteral) (hd : lib.Unmarshal b GoZero.zero = (some e, v)) :
    ((GoZero.zero : Optional T).UnmarshalJSON lib b).1 = some e ∧
    ((GoZero.zero : Optional T).UnmarshalJSON lib b).2.IsSet = true ∧
    ((GoZero.zero : Optional T).UnmarshalJSON lib b).2.IsNull = false ∧
    ((GoZero.zero : Optional T).UnmarshalJSON lib b).2.Value = (v, true) ∧
    ((GoZero.zero : Optional T).UnmarshalJSON lib b).2.Any = (ToAny.toAny v, true) ∧
    (∀ (m : GoMap) (c : String),
      (SetUpdate m c ((GoZero.zero : Optional T).UnmarshalJSON lib b).2).get c
        = some (ToAny.toAny v) ∧
      c ∈ (SetUpdate m c ((GoZero.zero : Optional T).UnmarshalJSON lib b).2).keys) := by
  have hz : (GoZero.zero : Optional T) = ⟨false, false, GoZero.zero⟩ := rfl
  have hr : (GoZero.zero : Optional T).UnmarshalJSON lib b = (some e, ⟨true, false, v⟩) := by
    simp [Optional.UnmarshalJSON, hn, hz, hd]
  rw [hr]
  refine ⟨rfl, rfl, rfl, rfl, ?_, ?_⟩
  · simp [Optional.Any]
  · intro m c
    constructor
    · simp [SetUpdate, Optional.IsSet, Optional.IsNull, Optional.Value, GoMap.get_assign_self]
    · rw [mem_keys_SetUpdate]
      exact Or.inl ⟨rfl, rfl⟩

theorem UnmarshalJSON_failure_leaves_value_witness :
    boolLib.TrimSpace [0x31] ≠ nullLiteral ∧
    boolLib.Unmarshal [0x31] GoZero.zero
      = (some "cannot unmarshal into Go value of type bool", false) ∧
    SetUpdate [] "active" ((GoZero.zero : Optional Bool).UnmarshalJSON boolLib [0x31]).2
      = [("active", GoAny.bool false)] ∧
    GoMap.get (SetUpdate [] "active"
      ((GoZero.zero : Optional Bool).UnmarshalJSON boolLib [0x31]).2) "active"
      = some (GoAny.bool false) :=
  ⟨by decide, by decide, by decide,
    ((UnmarshalJSON_failure_leaves_value boolLib [0x31]
      "cannot unmarshal into Go value of type bool" false (by decide) (by decide)).2.2.2.2.2
      [] "active").1⟩

/-- With a decoder whose successful result does not depend on the target, a successful
`UnmarshalJSON` gives the same result from every prior state. -/
theorem UnmarshalJSON_indep {T E : Type} [GoZero T] (lib : JSONLib T E)
    (hscalar : ∀ (b : Bytes) (c1 c2 : T), lib.TrimSpace b ≠ nullLiteral →
      (lib.Unmarshal b c1).1 = none → lib.Unmarshal b c2 = lib.Unmarshal b c1)
    (o1 o2 : Optional T) (b : Bytes) (h : (o1.UnmarshalJSON lib b).1 = none) :
    o2.UnmarshalJSON lib b = o1.UnmarshalJSON lib b := by
  by_cases hb : lib.TrimSpace b = nullLiteral
  · simp [Optional.UnmarshalJSON, hb]
  · have h1 : (lib.Unmarshal b o1.value).1 = none := by
      simpa [Optional.UnmarshalJSON, hb] using h
    have h2 := hscalar b o1.value o2.value hb h1
    simp [Optional.UnmarshalJSON, hb, h2]

/-- A member that selects another field leaves the state of a field as it was. -/
theorem decodeMember_other {E : Type} (d : JSONDecoder E) (dto : PatchUserDTO)
    (kv : String × Bytes) (f : DTOField) (hf : d.field kv.1 ≠ some f) :
    (PatchUserDTO.decodeMember d dto kv).2.fieldState f = dto.fieldState f := by
  unfold PatchUserDTO.decodeMember
  cases hk : d.field kv.1 with
  | none => rfl
  | some g =>
    have hg : g ≠ f := fun h => hf (by rw [hk, h])
    cases g <;> cases f <;> first | exact absurd rfl hg | rfl

/-- Members that select other fields leave the state of a field as it was. -/
theorem decodeMembers_other {E : Type} (d : JSONDecoder E) (f : DTOField)
    (ms : List (String × Bytes)) (dto : PatchUserDTO)
    (hf : ∀ kv, kv ∈ ms → d.field kv.1 ≠ some f) :
    (PatchUserDTO.decodeMembers d dto ms).2.fieldState f = dto.fieldState f := by
  induction ms generalizing dto with
  | nil => rfl
  | cons kv rest ih =>
    have hkv := decodeMember_other d dto kv f (hf kv (List.mem_cons_self kv rest))
    rcases hm : PatchUserDTO.decodeMember d dto kv with ⟨err, dto1⟩
    rw [hm] at hkv
    cases err with
    | some e =>
      simp only [PatchUserDTO.decodeMembers, hm]
      exact hkv
    | none =>
      simp only [PatchUserDTO.decodeMembers, hm]
      rw [ih dto1 (fun kv1 h1 => hf kv1 (List.mem_cons_of_mem kv h1))]
      exact hkv

/-- A decoding that succeeds has succeeded on every initial part of the members. -/
theorem decodeMembers_initial {E : Type} (d : JSONDecoder E) (pre post : List (String × Bytes))
    (dto : PatchUserDTO) (h : (PatchUserDTO.decodeMembers d dto (pre ++ post)).1 = none) :
    (PatchUserDTO.decodeMembers d dto pre).1 = none := by
  induction pre generalizing dto with
  | nil => rfl
  | cons kv rest ih =>
    rcases hm : PatchUserDTO.decodeMember d dto kv with ⟨err, dto1⟩
    cases err with
    | some e => simp [PatchUserDTO.decodeMembers, hm] at h
    | none =>
      simp only [PatchUserDTO.decodeMembers, hm, List.cons_append] at h ⊢
      exact ih dto1 h

/-- With decoders whose successful result does not depend on the target, a member that
is decoded successfully leaves its field in a state that does not depend on the DTO it
is decoded into. -/
theorem decodeMember_indep {E : Type} (d : JSONDecoder E)
    (hs : ∀ (b : Bytes) (c1 c2 : String), d.TrimSpace b ≠ nullLiteral →
      (d.UnmarshalString b c1).1 = none → d.UnmarshalString b c2 = d.UnmarshalString b c1)
    (hi : ∀ (b : Bytes) (c1 c2 : Int), d.TrimSpace b ≠ nullLiteral →
      (d.UnmarshalInt b c1).1 = none → d.UnmarshalInt b c2 = d.UnmarshalInt b c1)
    (hb : ∀ (b : Bytes) (c1 c2 : Bool), d.TrimSpace b ≠ nullLiteral →
      (d.UnmarshalBool b c1).1 = none → d.UnmarshalBool b c2 = d.UnmarshalBool b c1)
    (hfl : ∀ (b : Bytes) (c1 c2 : Float64), d.TrimSpace b ≠ nullLiteral →
      (d.UnmarshalFloat64 b c1).1 = none → d.UnmarshalFloat64 b c2 = d.UnmarshalFloat64 b c1)
    (dto1 dto2 : PatchUserDTO) (kv : String × Bytes) (f : DTOField)
    (hf : d.field kv.1 = some f) (h : (PatchUserDTO.decodeMember d dto1 kv).1 = none) :
    (PatchUserDTO.decodeMember d dto2 kv).2.fieldState f =
      (PatchUserDTO.decodeMember d dto1 kv).2.fieldState f := by
  cases f
  · have h1 : (dto1.Name.UnmarshalJSON d.stringLib kv.2).1 = none := by
      simpa [PatchUserDTO.decodeMember, hf] using h
    have h2 := UnmarshalJSON_indep d.stringLib hs dto1.Name dto2.Name kv.2 h1
    simp [PatchUserDTO.decodeMember, hf, PatchUserDTO.fieldState, h2]
  · have h1 : (dto1.Age.UnmarshalJSON d.intLib kv.2).1 = none := by
      simpa [PatchUserDTO.decodeMember, hf] using h
    have h2 := UnmarshalJSON_indep d.intLib hi dto1.Age dto2.Age kv.2 h1
    simp [PatchUserDTO.decodeMember, hf, PatchUserDTO.fieldState, h2]
  · have h1 : (dto1.Phone.UnmarshalJSON d.stringLib kv.2).1 = none := by
      simpa [PatchUserDTO.decodeMember, hf] using h
    have h2 := UnmarshalJSON_indep d.stringLib hs dto1.Phone dto2.Phone kv.2 h1
    simp [PatchUserDTO.decodeMember, hf, PatchUserDTO.fieldState, h2]
  · have h1 : (dto1.Active.UnmarshalJSON d.boolLib kv.2).1 = none := by
      simpa [PatchUserDTO.decodeMember, hf] using h
    have h2 := UnmarshalJSON_indep d.boolLib hb dto1.Active dto2.Active kv.2 h1
    simp [PatchUserDTO.decodeMember, hf, PatchUserDTO.fieldState, h2]
  · have h1 : (dto1.Bio.UnmarshalJSON d.stringLib kv.2).1 = none := by
      simpa [PatchUserDTO.decodeMember, hf] using h
    have h2 := UnmarshalJSON_indep d.stringLib hs dto1.Bio dto2.Bio kv.2 h1
    simp [PatchUserDTO.decodeMember, hf, PatchUserDTO.fieldState, h2]
  · have h1 : (dto1.Role.UnmarshalJSON d.stringLib kv.2).1 = none := by
      simpa [PatchUserDTO.decodeMember, hf] using h
    have h2 := UnmarshalJSON_indep d.stringLib hs dto1.Role dto2.Role kv.2 h1
    simp [PatchUserDTO.decodeMember, hf, PatchUserDTO.fieldState, h2]
  · have h1 : (dto1.Score.UnmarshalJSON d.float64Lib kv.2).1 = none := by
      simpa [PatchUserDTO.decodeMember, hf] using h
    have h2 := UnmarshalJSON_indep d.float64Lib hfl dto1.Score dto2.Score kv.2 h1
    simp [PatchUserDTO.decodeMember, hf, PatchUserDTO.fieldState, h2]

/-- The sample bool decoder gives the same successful result on every target. -/
theorem unmarshalBool_indep (b : Bytes) (c1 c2 : Bool) (h : (unmarshalBool b c1).1 = none) :
    unmarshalBool b c2 = unmarshalBool b c1 := by
  unfold unmarshalBool at h ⊢
  split_ifs at h ⊢ <;> simp_all

/-- The sample string decoder gives the same successful result on every target. -/
theorem unmarshalString_indep (b : Bytes) (c1 c2 : String)
    (h : (unmarshalString b c1).1 = none) : unmarshalString b c2 = unmarshalString b c1 := by
  unfold unmarshalString at h ⊢
  cases hq : unquote b with
  | none => simp [hq] at h
  | some inner => rfl

/-- The sample float decoder gives the same successful result on every target. -/
theorem unmarshalFloat64_indep (b : Bytes) (c1 c2 : Float64)
    (h : (unmarshalFloat64 b c1).1 = none) : unmarshalFloat64 b c2 = unmarshalFloat64 b c1 := by
  unfold unmarshalFloat64 at h ⊢
  split_ifs at h ⊢
  simp_all

/-- The sample int decoder gives the same successful result on every target. -/
theorem unmarshalInt_indep (b : Bytes) (c1 c2 : Int) (h : (unmarshalInt b c1).1 = none) :
    unmarshalInt b c2 = unmarshalInt b c1 := by
  unfold unmarshalInt at h ⊢
  dsimp only at h ⊢
  split at h
  · simp at h
  · split at h
    · split_ifs at h with hle
      simp_all
    · simp at h
  · split at h
    · split_ifs at h with hlt
      simp_all
    · simp at h

/-- C19: for a decoder of scalars (one whose successful result on a non-null input does
not depend on the value already in the target), the state of an Optional after a
successful `UnmarshalJSON` depends only on the bytes of that call: a non-null value
decoded into a Null Optional gives Value(v), null decoded into a Value gives Null with
the zero value, after a sequence of calls whose last one succeeds the state is that of
the last call alone, and in a request that decodes the last member that selects a field
alone determines the state of the field. -/
theorem UnmarshalJSON_last_call_wins {T E : Type} [GoZero T] (lib : JSONLib T E)
    (hscalar : ∀ (b : Bytes) (c1 c2 : T), lib.TrimSpace b ≠ nullLiteral →
      (lib.Unmarshal b c1).1 = none → lib.Unmarshal b c2 = lib.Unmarshal b c1) :
    (∀ (o1 o2 : Optional T) (b : Bytes), (o1.UnmarshalJSON lib b).1 = none →
      o2.UnmarshalJSON lib b = o1.UnmarshalJSON lib b) ∧
    (∀ (o : Optional T) (b : Bytes) (v : T), o.IsNull = true →
      lib.TrimSpace b ≠ nullLiteral → lib.Unmarshal b GoZero.zero = (none, v) →
      o.UnmarshalJSON lib b = (none, ⟨true, false, v⟩) ∧
      (o.UnmarshalJSON lib b).2.IsNull = false ∧
      (o.UnmarshalJSON lib b).2.Value = (v, true)) ∧
    (∀ (o : Optional T) (b : Bytes) (v : T), o.Value = (v, true) →
      lib.TrimSpace b = nullLiteral →
      o.UnmarshalJSON lib b = (none, ⟨true, true, GoZero.zero⟩) ∧
      (o.UnmarshalJSON lib b).2.IsNull = true) ∧
    (∀ (o : Optional T) (bs : List Bytes) (b : Bytes),
      ((o.unmarshalAll lib bs).UnmarshalJSON lib b).1 = none →
      o.unmarshalAll lib (bs ++ [b]) = ((GoZero.zero : Optional T).UnmarshalJSON lib b).2) ∧
    (∀ (d : JSONDecoder E),
      (∀ (b : Bytes) (c1 c2 : String), d.TrimSpace b ≠ nullLiteral →
        (d.UnmarshalString b c1).1 = none → d.UnmarshalString b c2 = d.UnmarshalString b c1) →
      (∀ (b : Bytes) (c1 c2 : Int), d.TrimSpace b ≠ nullLiteral →
        (d.UnmarshalInt b c1).1 = none → d.UnmarshalInt b c2 = d.UnmarshalInt b c1) →
      (∀ (b : Bytes) (c1 c2 : Bool), d.TrimSpace b ≠ nullLiteral →
        (d.UnmarshalBool b c1).1 = none → d.UnmarshalBool b c2 = d.UnmarshalBool b c1) →
      (∀ (b : Bytes) (c1 c2 : Float64), d.TrimSpace b ≠ nullLiteral →
        (d.UnmarshalFloat64 b c1).1 = none →
        d.UnmarshalFloat64 b c2 = d.UnmarshalFloat64 b c1) →
      ∀ (pre post : List (String × Bytes)) (kv : String × Bytes) (f : DTOField)
        (dto : PatchUserDTO),
        d.field kv.1 = some f → (∀ kv1, kv1 ∈ post → d.field kv1.1 ≠ some f) →
        PatchUserDTO.decodeMembers d GoZero.zero (pre ++ kv :: post) = (none, dto) →
        dto.fieldState f = (PatchUserDTO.decodeMember d GoZero.zero kv).2.fieldState f) := by
  refine ⟨?_, ?_, ?_, ?_, ?_⟩
  · intro o1 o2 b h
    exact UnmarshalJSON_indep lib hscalar o1 o2 b h
  · intro o b v _ hn hd
    have h2 := hscalar b GoZero.zero o.value hn (by rw [hd])
    have hr : o.UnmarshalJSON lib b = (none, ⟨true, false, v⟩) := by
      simp [Optional.UnmarshalJSON, hn, h2, hd]
    rw [hr]
    exact ⟨rfl, rfl, rfl⟩
  · intro o b v _ hn
    have hr : o.UnmarshalJSON lib b = (none, ⟨true, true, GoZero.zero⟩) := by
      simp [Optional.UnmarshalJSON, hn]
    rw [hr]
    exact ⟨rfl, rfl⟩
  · intro o bs b h
    have h2 := UnmarshalJSON_indep lib hscalar (o.unmarshalAll lib bs) GoZero.zero b h
    simp only [Optional.unmarshalAll, List.foldl_append, List.foldl_cons, List.foldl_nil]
    rw [h2]
    rfl
  · intro d hs hi hb hfl pre post kv f dto hf hpost hdec
    have hpre : (PatchUserDTO.decodeMembers d GoZero.zero pre).1 = none :=
      decodeMembers_initial d pre (kv :: post) GoZero.zero (by rw [hdec])
    rw [decodeMembers_append d GoZero.zero pre (kv :: post) hpre] at hdec
    rcases hm : PatchUserDTO.decodeMember d (PatchUserDTO.decodeMembers d GoZero.zero pre).2 kv
      with ⟨err, dto2⟩
    cases err with
    | some e => simp [PatchUserDTO.decodeMembers, hm] at hdec
    | none =>
      simp only [PatchUserDTO.decodeMembers, hm] at hdec
      have h1 := decodeMembers_other d f post dto2 hpost
      rw [hdec] at h1
      have h2 := decodeMember_indep d hs hi hb hfl
        (PatchUserDTO.decodeMembers d GoZero.zero pre).2 GoZero.zero kv f hf (by rw [hm])
      rw [hm] at h2
      rw [h2]
      exact h1

theorem UnmarshalJSON_last_call_wins_witness :
    (⟨true, true, false⟩ : Optional Bool).IsNull = true ∧
    (⟨true, true, false⟩ : Optional Bool).UnmarshalJSON boolLib [0x74, 0x72, 0x75, 0x65]
      = (none, ⟨true, false, true⟩) ∧
    PatchUserDTO.decodeMembers sampleDecoder GoZero.zero
      ([("active", ascii "null")] ++ ("active", ascii "true") :: [("age", ascii "7")])
      = (none, { (GoZero.zero : PatchUserDTO) with
          Active := ⟨true, false, true⟩, Age := ⟨true, false, 7⟩ }) ∧
    PatchUserDTO.fieldState { (GoZero.zero : PatchUserDTO) with
        Active := ⟨true, false, true⟩, Age := ⟨true, false, 7⟩ } DTOField.Active
      = (PatchUserDTO.decodeMember sampleDecoder GoZero.zero
          ("active", ascii "true")).2.fieldState DTOField.Active :=
  ⟨by decide,
    ((UnmarshalJSON_last_call_wins boolLib
      (fun b c1 c2 _ h => unmarshalBool_indep b c1 c2 h)).2.1
      (⟨true, true, false⟩ : Optional Bool) [0x74, 0x72, 0x75, 0x65] true
      (by decide) (by decide) (by decide)).1,
    by decide,
    (UnmarshalJSON_last_call_wins boolLib
      (fun b c1 c2 _ h => unmarshalBool_indep b c1 c2 h)).2.2.2.2 sampleDecoder
      (fun b c1 c2 _ h => unmarshalString_indep b c1 c2 h)
      (fun b c1 c2 _ h => unmarshalInt_indep b c1 c2 h)
      (fun b c1 c2 _ h => unmarshalBool_indep b c1 c2 h)
      (fun b c1 c2 _ h => unmarshalFloat64_indep b c1 c2 h)
      [("active", ascii "null")] [("age", ascii "7")] ("active", ascii "true") DTOField.Active
      { (GoZero.zero : PatchUserDTO) with
        Active := ⟨true, false, true⟩, Age := ⟨true, false, 7⟩ }
      (by decide) (by decide) (by decide)⟩

end GoPatch
